import Mathlib

set_option maxHeartbeats 1000000
set_option linter.unreachableTactic false
set_option linter.unusedTactic false
set_option linter.unnecessarySeqFocus false

/- Verification development for the rotating log-file handler
   (src/lib/handlers/rotating.js).  The JavaScript code is shallowly
   embedded: JS Date values become records of civil-calendar components,
   the stateful handler becomes explicit state passing, filesystem calls
   become oracle inputs, and every destructive filesystem operation is
   recorded in an explicit action trace.  All divisors below are positive,
   so Int ediv and emod coincide with the floor division and modulus that
   JS date normalization uses. -/

/-! # JS Date model -/

/-- Proleptic Gregorian leap-year test. -/
def isLeap (y : Int) : Bool := y % 4 == 0 && (y % 100 != 0 || y % 400 == 0)

/-- Days in month `m` (0-based, January = 0) of year `y`. -/
def daysInMonth (y m : Int) : Int :=
  if m = 1 then (if isLeap y then 29 else 28)
  else if m = 3 ∨ m = 5 ∨ m = 8 ∨ m = 10 then 30
  else 31

/-- Previous (year, month) pair, 0-based months. -/
def prevYM (y m : Int) : Int × Int := if m = 0 then (y - 1, 11) else (y, m - 1)

/-- Next (year, month) pair, 0-based months. -/
def nextYM (y m : Int) : Int × Int := if m = 11 then (y + 1, 0) else (y, m + 1)

/-- Normalize an out-of-range day-of-month by walking across month
    boundaries, as JS Date construction does.  The fuel argument is chosen
    by the caller large enough that it never runs out (each step moves the
    day at least 28 closer to range). -/
def normDM : Nat → Int → Int → Int → Int × Int × Int
  | 0, y, m, d => (y, m, d)
  | fuel + 1, y, m, d =>
    if d < 1 then
      normDM fuel (prevYM y m).1 (prevYM y m).2 (d + daysInMonth (prevYM y m).1 (prevYM y m).2)
    else if daysInMonth y m < d then
      normDM fuel (nextYM y m).1 (nextYM y m).2 (d - daysInMonth y m)
    else (y, m, d)

/-- A JS Date value, represented by the civil components its accessors
    (getFullYear, getMonth, getDate, getHours, getMinutes, getSeconds,
    getMilliseconds) return.  Months are 0-based as in JS. -/
@[ext]
structure JSDate where
  year : Int
  month : Int
  day : Int
  hour : Int
  minute : Int
  second : Int
  msec : Int
deriving DecidableEq, Repr

/-- The JS constructor `new Date(y, m, d, h, mi, s)` with full JS
    normalization: years 0..99 map to 1900..1999, the month is folded into
    the year, the time of day is folded into the day count, and the day is
    folded across month boundaries. -/
def newDate (y m d h mi s : Int) : JSDate :=
  let yf := if 0 ≤ y ∧ y ≤ 99 then y + 1900 else y
  let y1 := yf + m / 12
  let m1 := m % 12
  let t := h * 3600000 + mi * 60000 + s * 1000
  let carry := t / 86400000
  let tod := t % 86400000
  let dd := d + carry
  let r := normDM (dd.natAbs + 2) y1 m1 dd
  { year := r.1, month := r.2.1, day := r.2.2,
    hour := tod / 3600000,
    minute := (tod % 3600000) / 60000,
    second := (tod % 60000) / 1000,
    msec := tod % 1000 }

/-- Day count since the epoch 1970-01-01 for civil components (0-based
    month), defined for arbitrary integer day offsets. -/
def daysFromCivil (y m d : Int) : Int :=
  let yAdj := if m ≤ 1 then y - 1 else y
  let era := yAdj / 400
  let yoe := yAdj - era * 400
  let mp := (m + 10) % 12
  let doy := (153 * mp + 2) / 5 + d - 1
  let doe := yoe * 365 + yoe / 4 - yoe / 100 + doy
  era * 146097 + doe - 719468

/-- `Date.prototype.getTime`: milliseconds since the epoch. -/
def getTime (dt : JSDate) : Int :=
  daysFromCivil dt.year dt.month dt.day * 86400000
    + dt.hour * 3600000 + dt.minute * 60000 + dt.second * 1000 + dt.msec

/-- `Date.prototype.getDay`: day of week, 0 = Sunday (1970-01-01 was a
    Thursday, day 4). -/
def getDay (dt : JSDate) : Int :=
  (daysFromCivil dt.year dt.month dt.day + 4) % 7

/-! # The granularity table (`rotates` in the source)

Each named granularity carries `timeRate` (next rotation boundary) and
`rotatePeriod` (start of the period ending at a boundary), transcribed
from the source. -/

def yearlyTimeRate (prev : JSDate) : JSDate := newDate (prev.year + 1) 0 1 0 0 0

def yearlyRotatePeriod (prev : JSDate) : JSDate := newDate (prev.year - 1) 0 1 0 0 0

def monthlyTimeRate (prev : JSDate) : JSDate := newDate prev.year (prev.month + 1) 1 0 0 0

def monthlyRotatePeriod (prev : JSDate) : JSDate := newDate prev.year (prev.month - 1) 1 0 0 0

def weeklyTimeRate (prev : JSDate) : JSDate :=
  newDate prev.year prev.month (prev.day + 7 - getDay prev) 0 0 0

def weeklyRotatePeriod (prev : JSDate) : JSDate :=
  newDate prev.year prev.month (prev.day - 7 + getDay prev) 0 0 0

def dailyTimeRate (prev : JSDate) : JSDate := newDate prev.year prev.month (prev.day + 1) 0 0 0

def dailyRotatePeriod (prev : JSDate) : JSDate := newDate prev.year prev.month (prev.day - 1) 0 0 0

def hourlyTimeRate (prev : JSDate) : JSDate :=
  newDate prev.year prev.month prev.day (prev.hour + 1) 0 0

def hourlyRotatePeriod (prev : JSDate) : JSDate :=
  newDate prev.year prev.month prev.day (prev.hour - 1) 0 0

def everyminuteTimeRate (prev : JSDate) : JSDate :=
  newDate prev.year prev.month prev.day prev.hour (prev.minute + 1) 0

def everyminuteRotatePeriod (prev : JSDate) : JSDate :=
  newDate prev.year prev.month prev.day prev.hour (prev.minute - 1) 0

def everysecondTimeRate (prev : JSDate) : JSDate :=
  newDate prev.year prev.month prev.day prev.hour prev.minute (prev.second + 1)

def everysecondRotatePeriod (prev : JSDate) : JSDate :=
  newDate prev.year prev.month prev.day prev.hour prev.minute (prev.second - 1)

def every3secondsTimeRate (prev : JSDate) : JSDate :=
  newDate prev.year prev.month prev.day prev.hour prev.minute (prev.second + 3)

def every3secondsRotatePeriod (prev : JSDate) : JSDate :=
  newDate prev.year prev.month prev.day prev.hour prev.minute (prev.second - 3)

structure GranEntry where
  timeRate : JSDate → JSDate
  rotatePeriod : JSDate → JSDate
  format : String

/-- The `rotates` lookup table from the source; returns `none` for a key
    that is not a named granularity (a JS property access yielding
    `undefined`). -/
def rotates : String → Option GranEntry
  | "yearly" => some ⟨yearlyTimeRate, yearlyRotatePeriod, "%Y"⟩
  | "monthly" => some ⟨monthlyTimeRate, monthlyRotatePeriod, "%Y%m"⟩
  | "weekly" => some ⟨weeklyTimeRate, weeklyRotatePeriod, "%Y%m%d"⟩
  | "daily" => some ⟨dailyTimeRate, dailyRotatePeriod, "%Y%m%d"⟩
  | "hourly" => some ⟨hourlyTimeRate, hourlyRotatePeriod, "%Y%m%d%H"⟩
  | "everyminute" => some ⟨everyminuteTimeRate, everyminuteRotatePeriod, "%Y%m%d%H%M"⟩
  | "everysecond" => some ⟨everysecondTimeRate, everysecondRotatePeriod, "%Y%m%d%H%M%S"⟩
  | "every3seconds" => some ⟨every3secondsTimeRate, every3secondsRotatePeriod, "%Y%m%d%H%M%S"⟩
  | _ => none

/-- The `timeRate` configuration option: a named granularity string or a
    raw millisecond interval. -/
inductive TimeRateOpt
  | named (s : String)
  | rawMs (n : Int)

/-- `rotates[this._timeRate]`: a raw millisecond interval is not a key of
    the table, so the lookup yields `undefined`. -/
def rotatesLookup : TimeRateOpt → Option GranEntry
  | .named s => rotates s
  | .rawMs _ => none

/-- The time-rule part of the RotatingFileHandler constructor
    (rotating.js lines 170-180).  The source reads
    `rotates[this._timeRate].rotatePeriod || fallback`; when the lookup
    yields `undefined` the property read itself throws a TypeError, so the
    raw-interval fallback functions are unreachable and construction
    fails.  When the lookup succeeds, both fields are present in every
    table entry, so the fallback after `||` is never selected. -/
def timeRuleSetup (tr : TimeRateOpt) :
    Except String ((JSDate → JSDate) × (JSDate → JSDate)) :=
  match rotatesLookup tr with
  | none => Except.error "TypeError"
  | some e => Except.ok (e.rotatePeriod, e.timeRate)

/-! # maxSize parsing (`bytes` in the source)

`bytes` scans the string with the regex `(\d+)(gb|mb|kb|b)` globally and
sums `map[unit] * parseInt(size)` over the matches, where the map is
b = 1, kb = 1 shifted left 10, mb = 1 shifted left 20, gb = 1 shifted
left 30.  The scan below is the leftmost-match semantics of that regex:
an accumulator of `some n` means the characters immediately before the
current position are a run of digits with value `n`. -/

def bytesScanA : Option Nat → List Char → Nat
  | _, [] => 0
  | some n, 'g' :: 'b' :: r => 1073741824 * n + bytesScanA none r
  | some n, 'm' :: 'b' :: r => 1048576 * n + bytesScanA none r
  | some n, 'k' :: 'b' :: r => 1024 * n + bytesScanA none r
  | some n, 'b' :: r => 1 * n + bytesScanA none r
  | acc, c :: cs =>
    if c.isDigit then bytesScanA (some ((acc.getD 0) * 10 + (c.toNat - 48))) cs
    else bytesScanA none cs

/-- The `bytes` function from the source, on the character list of its
    string argument. -/
def bytes (s : List Char) : Nat := bytesScanA none s

/-- The `maxSize` option: an integer or a suffixed string. -/
inductive MaxSizeOpt
  | int (n : Int)
  | str (s : List Char)

/-- Constructor lines 147-151: a string maxSize goes through `bytes`, an
    integer is stored as is. -/
def resolveMaxSize : MaxSizeOpt → Int
  | .int n => n
  | .str s => (bytes s : Int)

/-! # Handler state and the tracker (`_getData` / `shouldRotate`) -/

inductive Rule
  | size
  | time
deriving DecidableEq, Repr

inductive ErrCode
  | enoent
  | other
deriving DecidableEq, Repr

/-- Sibling-file suffix recognized by `_renameBySize`: the temporary file
    `<file>.tmp` or a numbered archive `<file>.<n>`. -/
inductive SizeName
  | tmp
  | num (n : Nat)
deriving DecidableEq, Repr

/-- Filesystem and logging actions, recorded as a trace.  Timestamps in
    `accessArchive` and `renameTmpArchive` stand for the compiled filename
    pattern applied to that timestamp (the pattern compiler is an external
    collaborator; only its timestamp argument matters here). -/
inductive FsAct
  | statFile
  | closeStream
  | openStream
  | logError
  | lockOkA
  | lockFailA
  | unlockA
  | accessArchive (t : Int)
  | renameLiveTmp
  | renameTmpArchive (t : Int)
  | prune
  | delSize (n : SizeName)
  | renameSize (src dst : SizeName)
deriving DecidableEq, Repr

/-- The rotation-relevant mutable fields of a RotatingFileHandler.
    Timestamps are milliseconds since the epoch. -/
structure RotState where
  rule : Rule
  maxSize : Int
  rotateAt : Option Int
  rotateStartPeriod : Option Int
  prevCheckTime : Option Int
  prevSize : Option Int
deriving DecidableEq, Repr

/-- `reopen` (file handler lines 246-256): clears `_prevCheckTime` and
    `_prevSize`, ends the old stream and opens a fresh one. -/
def reopenState (st : RotState) : RotState :=
  { st with prevCheckTime := none, prevSize := none }

def reopenActs : List FsAct := [FsAct.closeStream, FsAct.openStream]

/-- `_getData` (rotating.js lines 301-336).  `now` is the current clock in
    ms; `nR`/`rP` are `_nextRotate`/`_rotatePeriod` at the ms level; the
    oracle list supplies the outcome of each successive `stat` call.
    Returns the data the promise resolves with (`some size` or no data),
    the final state, and the action trace.  On ENOENT the source runs
    `reopen().then(that._getData())`: the inner call executes (and keeps
    its state effects) but is passed to `then` as a non-function, so the
    outer promise resolves with the reopen value, i.e. no data. -/
def getData : RotState → Int → (Int → Int) → (Int → Int) →
    List (Except ErrCode Int) → Option Int × RotState × List FsAct
  | st, _, _, _, [] => (none, st, [])
  | st, now, nR, rP, statRes :: rest =>
    match statRes with
    | .ok sz =>
      let st1 := if st.rule = Rule.time ∧ st.rotateAt = none then
          { st with rotateAt := some (nR now), rotateStartPeriod := some (rP (nR now)) }
        else st
      let st2 := if st1.prevCheckTime = none then { st1 with prevCheckTime := some now } else st1
      let st3 := if st2.prevSize = none then { st2 with prevSize := some sz } else st2
      if st3.rule = Rule.size ∧ sz < st3.prevSize.getD sz then
        (none, reopenState { st3 with prevSize := some sz }, FsAct.statFile :: reopenActs)
      else
        (some sz, { st3 with prevSize := some sz }, [FsAct.statFile])
    | .error ErrCode.enoent =>
      let r := getData (reopenState st) now nR rP rest
      (none, r.2.1, FsAct.statFile :: (reopenActs ++ r.2.2))
    | .error ErrCode.other =>
      (none, reopenState st, [FsAct.statFile, FsAct.logError] ++ reopenActs)

/-- `shouldRotate` (rotating.js lines 262-299).  Runs `_getData`; with no
    data the check yields false.  The time rule compares `parseInt(x/1000)`
    values, i.e. timestamps truncated to whole seconds (`Int.div`, which
    matches parseInt truncation toward zero). -/
def shouldRotate (st : RotState) (force : Bool) (now : Int) (nR rP : Int → Int)
    (oracle : List (Except ErrCode Int)) : Bool × RotState × List FsAct :=
  let r := getData st now nR rP oracle
  match r.1 with
  | none => (false, r.2.1, r.2.2)
  | some sz =>
    let st1 := r.2.1
    if st1.rule = Rule.time then
      let st2 := if st1.rotateAt = none then
          { st1 with rotateAt := some (nR now), rotateStartPeriod := some (rP (nR now)) }
        else st1
      if force then (true, st2, r.2.2)
      else if Int.tdiv (st2.rotateAt.getD 0) 1000 ≤ Int.tdiv now 1000 then (true, st2, r.2.2)
      else if Int.tdiv (st2.prevCheckTime.getD 0) 1000
          < Int.tdiv (st2.rotateStartPeriod.getD 0) 1000 then (true, st2, r.2.2)
      else (false, st2, r.2.2)
    else
      (decide (st1.maxSize < sz), st1, r.2.2)

/-! # Size-based renumbering (`_renameBySize`) -/

/-- The sort comparator of `_renameBySize` (lines 453-463): the temporary
    file sorts first, numbered files ascending. -/
def sizeLe (a b : SizeName) : Bool :=
  match a, b with
  | .tmp, _ => true
  | .num _, .tmp => false
  | .num x, .num y => x ≤ y

/-- Insertion sort with the `_renameBySize` comparator, modelling
    `unsortedList.sort(...)`. -/
def sizeInsert (a : SizeName) : List SizeName → List SizeName
  | [] => [a]
  | b :: l => if sizeLe a b then a :: b :: l else b :: sizeInsert a l

def sizeSort : List SizeName → List SizeName
  | [] => []
  | a :: l => sizeInsert a (sizeSort l)

/-- One loop iteration of `_renameBySize` at list position `i` holding
    entry `x`: at or beyond `maxFiles` the file is deleted, otherwise it
    is renamed to rank + 1 (the temporary file to rank 1). -/
def sizeStep (maxFiles : Nat) (i : Nat) (x : SizeName) : FsAct :=
  if maxFiles ≤ i then FsAct.delSize x
  else FsAct.renameSize x (match x with | .tmp => .num 1 | .num n => .num (n + 1))

/-- The loop body of `_renameBySize` in ascending position order; the loop
    itself runs from the highest index down, hence the reverse below. -/
def sizeWalkAsc (maxFiles : Nat) : Nat → List SizeName → List FsAct
  | _, [] => []
  | i, x :: xs => sizeStep maxFiles i x :: sizeWalkAsc maxFiles (i + 1) xs

/-- The action trace of `_renameBySize` (lines 440-479) on the sorted
    sibling list: walk from the highest position down to position 0. -/
def renameBySizeActs (maxFiles : Nat) (sorted : List SizeName) : List FsAct :=
  (sizeWalkAsc maxFiles 0 sorted).reverse

/-- `_renameBySize` on the unsorted matched directory listing. -/
def renameBySize (maxFiles : Nat) (listing : List SizeName) : List FsAct :=
  renameBySizeActs maxFiles (sizeSort listing)

/-- Effect of one trace action on the set of on-disk sibling files,
    represented as a characteristic function (rename moves the content of
    `src` to `dst`; other actions do not change this set). -/
def applyFs (a : FsAct) (s : SizeName → Bool) : SizeName → Bool :=
  match a with
  | .delSize n => fun z => if z = n then false else s z
  | .renameSize src dst => fun z => if z = dst then s src else if z = src then false else s z
  | _ => s

def applyFsList (acts : List FsAct) (s : SizeName → Bool) : SizeName → Bool :=
  acts.foldl (fun t a => applyFs a t) s

/-! # The rotate protocol (`rotate`, lines 338-410) -/

/-- Recompute `_rotateAt` and `_rotateStartPeriod` from the current time
    (lines 388-391 and 397-400). -/
def recomputeSchedule (st : RotState) (now : Int) (nR rP : Int → Int) : RotState :=
  { st with rotateAt := some (nR now), rotateStartPeriod := some (rP (nR now)) }

/-- The `rotate` protocol.  Oracle inputs: `lockOk` is whether the lock on
    `<file>.rotate` was acquired within the bounded retries; `statRes` the
    result of the post-lock stat of the live file; `accessRes` the result
    of `fs.accessSync` on the archive name for the current period start
    (time rule only); `renameTimeOk` whether the archive rename succeeded;
    `listing` the matched directory entries for `_renameBySize`;
    `oracle2` the stat oracle of the trailing `_getData`.  Returns the
    final state and the action trace.  The promise chain resolves on every
    path (all errors are caught), so there is no error component. -/
def rotate (st : RotState) (now : Int) (nR rP : Int → Int) (lockOk : Bool)
    (statRes : Except ErrCode Int) (accessRes : Except ErrCode Unit) (renameTimeOk : Bool)
    (listing : List SizeName) (maxFiles : Nat) (oracle2 : List (Except ErrCode Int)) :
    RotState × List FsAct :=
  if lockOk = false then
    let st1 := if st.rule = Rule.time then recomputeSchedule st now nR rP else st
    (reopenState st1, FsAct.lockFailA :: reopenActs)
  else
    match statRes with
    | .error _ =>
      (st, [FsAct.lockOkA, FsAct.statFile, FsAct.logError, FsAct.unlockA])
    | .ok _ =>
      let ps := st.rotateStartPeriod.getD 0
      if st.rule = Rule.time ∧ (accessRes matches .ok _) then
        let st1 := recomputeSchedule (reopenState st) now nR rP
        (st1, [FsAct.lockOkA, FsAct.statFile, FsAct.accessArchive ps] ++ reopenActs
          ++ [FsAct.unlockA])
      else
        let checkActs := if st.rule = Rule.time then
            FsAct.accessArchive ps ::
              (if (accessRes matches .error ErrCode.other) then [FsAct.logError] else [])
          else []
        let archActs := if st.rule = Rule.time then
            (if renameTimeOk then [FsAct.renameTmpArchive ps] else [FsAct.logError])
              ++ [FsAct.prune]
          else renameBySize maxFiles listing
        let g := getData (reopenState st) now nR rP oracle2
        let st1 := if st.rule = Rule.time then recomputeSchedule g.2.1 now nR rP else g.2.1
        (st1, [FsAct.lockOkA, FsAct.statFile] ++ checkActs ++ [FsAct.renameLiveTmp]
          ++ reopenActs ++ archActs ++ g.2.2 ++ [FsAct.unlockA])

/-- `doRotate` (lines 222-244): run `shouldRotate`; when it reports due and
    no rotation is in progress, run `rotate`.  Every error is caught, so
    the callback is always invoked; the returned Bool is whether the
    callback ran. -/
def doRotate (st : RotState) (rotatingNow force : Bool) (now : Int) (nR rP : Int → Int)
    (oracle : List (Except ErrCode Int)) (lockOk : Bool) (statRes : Except ErrCode Int)
    (accessRes : Except ErrCode Unit) (renameTimeOk : Bool) (listing : List SizeName)
    (maxFiles : Nat) (oracle2 : List (Except ErrCode Int)) :
    RotState × List FsAct × Bool :=
  let s := shouldRotate st force now nR rP oracle
  if s.1 ∧ rotatingNow = false then
    let r := rotate s.2.1 now nR rP lockOk statRes accessRes renameTimeOk listing maxFiles oracle2
    (r.1, s.2.2 ++ r.2, true)
  else
    (s.2.1, s.2.2, true)

/-! # Rotation scheduling (`_setRotateTimeout`, `emit`) -/

/-- `_setRotateTimeout` (lines 158-167): the timer delay is the next
    boundary minus now; a timer is armed only for a strictly positive
    delay of at most 2147483647 ms. -/
def rotateTimeoutValue (nextRotateFn : JSDate → JSDate) (now : JSDate) : Int :=
  getTime (nextRotateFn now) - getTime now

def setRotateTimeout (tv : Int) : Option Int :=
  if 0 < tv ∧ tv ≤ 2147483647 then some tv else none

/-- The guard in `emit` (lines 200-220) deciding whether this record write
    also starts a throttled rotation check: only under the size rule, and
    only when the cached deadline is absent or passed. -/
def emitChecksRotate (rule : Rule) (nextRotateCheckTime : Option Int) (now : Int) : Bool :=
  (rule == Rule.size) &&
    (nextRotateCheckTime.isNone || decide (nextRotateCheckTime.getD 0 - now < 0))

/-- The only two call sites of `doRotate` are the rotation timer callback
    (line 164) and the emit-path check (line 207); a time-based rotation
    can be initiated only through one of them. -/
def timeTriggerPossible (rule : Rule) (tv : Int) (nct : Option Int) (now : Int) : Prop :=
  setRotateTimeout tv ≠ none ∨ emitChecksRotate rule nct now = true

/-! # Specification-side helpers

`ByteUnit`, `unitVal`, `unitChars` and `digitsVal` restate the token
vocabulary of the maxSize spec sentence; `validDate` and the `trunc`
functions express calendar-unit starts for the granularity claims. -/

inductive ByteUnit
  | b
  | kb
  | mb
  | gb
deriving DecidableEq, Repr

def unitVal : ByteUnit → Nat
  | .b => 1
  | .kb => 1024
  | .mb => 1048576
  | .gb => 1073741824

def unitChars : ByteUnit → List Char
  | .b => ['b']
  | .kb => ['k', 'b']
  | .mb => ['m', 'b']
  | .gb => ['g', 'b']

/-- Decimal value of a digit string, as parseInt computes it. -/
def digitsVal (ds : List Char) : Nat :=
  ds.foldl (fun n c => n * 10 + (c.toNat - 48)) 0

/-- A well-formed JS Date component record: month, day and time fields in
    range.  Years below 1000 are excluded so that the JS constructor
    mapping of years 0..99 to 1900..1999 never interferes. -/
def validDate (dt : JSDate) : Prop :=
  1000 ≤ dt.year ∧ 0 ≤ dt.month ∧ dt.month ≤ 11
    ∧ 1 ≤ dt.day ∧ dt.day ≤ daysInMonth dt.year dt.month
    ∧ 0 ≤ dt.hour ∧ dt.hour ≤ 23 ∧ 0 ≤ dt.minute ∧ dt.minute ≤ 59
    ∧ 0 ≤ dt.second ∧ dt.second ≤ 59 ∧ 0 ≤ dt.msec ∧ dt.msec ≤ 999

instance (dt : JSDate) : Decidable (validDate dt) := by
  unfold validDate; infer_instance

/-- Start of the calendar day containing `dt`. -/
def truncDay (dt : JSDate) : JSDate := ⟨dt.year, dt.month, dt.day, 0, 0, 0, 0⟩

/-- Start of the hour containing `dt`. -/
def truncHour (dt : JSDate) : JSDate := ⟨dt.year, dt.month, dt.day, dt.hour, 0, 0, 0⟩

/-- Start of the minute containing `dt`. -/
def truncMin (dt : JSDate) : JSDate := ⟨dt.year, dt.month, dt.day, dt.hour, dt.minute, 0, 0⟩

/-- Start of the second containing `dt`. -/
def truncSec (dt : JSDate) : JSDate :=
  ⟨dt.year, dt.month, dt.day, dt.hour, dt.minute, dt.second, 0⟩

/-! # Shared lemmas about `getData` -/

/-- `getData` never changes the configured rule or size threshold. -/
theorem getData_config_eq (oracle : List (Except ErrCode Int)) :
    ∀ st now nR rP, ((getData st now nR rP oracle).2.1).rule = st.rule
      ∧ ((getData st now nR rP oracle).2.1).maxSize = st.maxSize := by
  induction oracle with
  | nil => intro st now nR rP; simp [getData]
  | cons hd tl ih =>
    intro st now nR rP
    match hd with
    | .ok sz =>
      simp only [getData]
      split_ifs <;> simp_all [reopenState]
    | .error ErrCode.enoent =>
      simpa [getData, reopenState] using ih (reopenState st) now nR rP
    | .error ErrCode.other =>
      simp [getData, reopenState]

/-- The trace of `getData` contains no destructive action. -/
theorem getData_acts_safe (oracle : List (Except ErrCode Int)) :
    ∀ st now nR rP a, a ∈ (getData st now nR rP oracle).2.2 →
      a = FsAct.statFile ∨ a = FsAct.closeStream ∨ a = FsAct.openStream ∨ a = FsAct.logError := by
  induction oracle with
  | nil => intro st now nR rP a h; simp [getData] at h
  | cons hd tl ih =>
    intro st now nR rP a h
    match hd with
    | .ok sz =>
      simp only [getData] at h
      split_ifs at h <;> simp [reopenActs] at h <;> tauto
    | .error ErrCode.enoent =>
      simp only [getData, reopenActs, List.mem_cons, List.mem_append] at h
      rcases h with h | h | h
      · tauto
      · rcases h with h | h <;> tauto
      · exact ih (reopenState st) now nR rP a h
    | .error ErrCode.other =>
      simp [getData, reopenActs] at h
      tauto

/-- `getData` yields data only from the first stat outcome, when it is a
    success and no external truncation was detected; in that case the
    state keeps every already-defined scheduling field. -/
theorem getData_some (st : RotState) (now : Int) (nR rP : Int → Int)
    (oracle : List (Except ErrCode Int)) (sz : Int)
    (h : (getData st now nR rP oracle).1 = some sz) :
    ∃ rest, oracle = Except.ok sz :: rest
      ∧ (getData st now nR rP oracle).2.2 = [FsAct.statFile]
      ∧ ((getData st now nR rP oracle).2.1).rotateAt =
          (if st.rule = Rule.time ∧ st.rotateAt = none then some (nR now) else st.rotateAt)
      ∧ ((getData st now nR rP oracle).2.1).rotateStartPeriod =
          (if st.rule = Rule.time ∧ st.rotateAt = none then some (rP (nR now))
            else st.rotateStartPeriod)
      ∧ ((getData st now nR rP oracle).2.1).prevCheckTime =
          (if st.prevCheckTime = none then some now else st.prevCheckTime) := by
  match oracle with
  | [] => simp [getData] at h
  | .ok v :: rest =>
    refine ⟨rest, ?_⟩
    simp only [getData] at h ⊢
    split_ifs at h ⊢ with h1 h2 h3 h4 h5 h6 h7 <;>
      simp_all [reopenState]
  | .error ErrCode.enoent :: rest => simp [getData] at h
  | .error ErrCode.other :: rest => simp [getData] at h

/-! # C1: the time rule of `shouldRotate` -/

/-- C1 (counterexample).  The claim says the time rule fires exactly when
    force is set, or now has reached rotateAt, or the last check timestamp
    is before the period start.  With rotateAt = 1500 ms, now = 1000 ms,
    prevCheckTime = 5000 ms and periodStart = 0 ms, none of those three
    conditions holds, yet `shouldRotate` returns true, because the source
    compares `parseInt(x/1000)` values: 1500 and 1000 both truncate to
    second 1. -/
theorem shouldRotate_time_claim_false :
    (shouldRotate ⟨Rule.time, 0, some 1500, some 0, some 5000, some 7⟩ false 1000
      (fun t => t + 86400000) (fun t => t - 86400000) [Except.ok 7]).1 = true
    ∧ ¬(False ∨ (1500 : Int) ≤ 1000 ∨ (5000 : Int) < 0) := by
  constructor
  · decide
  · decide

/-- C1 (amended).  For a time-rule state whose scheduling fields are set
    and a check cycle that obtained a snapshot, `shouldRotate` returns
    true exactly when force is set, or rotateAt truncated to whole seconds
    is at most now truncated to whole seconds, or the last check timestamp
    truncated to whole seconds is earlier than the period start truncated
    to whole seconds. -/
theorem shouldRotate_time_rule (st : RotState) (force : Bool) (now ra pc ps sz : Int)
    (nR rP : Int → Int) (oracle : List (Except ErrCode Int))
    (hrule : st.rule = Rule.time)
    (hra : st.rotateAt = some ra) (hpc : st.prevCheckTime = some pc)
    (hps : st.rotateStartPeriod = some ps)
    (hdata : (getData st now nR rP oracle).1 = some sz) :
    (shouldRotate st force now nR rP oracle).1 =
      (force || decide (Int.tdiv ra 1000 ≤ Int.tdiv now 1000)
        || decide (Int.tdiv pc 1000 < Int.tdiv ps 1000)) := by
  obtain ⟨rest, horacle, hacts, hrat, hrsp, hpct⟩ := getData_some st now nR rP oracle sz hdata
  have hcfg := getData_config_eq oracle st now nR rP
  have hrat2 : (getData st now nR rP oracle).2.1.rotateAt = some ra := by
    rw [hrat, hra]; simp
  have hrsp2 : (getData st now nR rP oracle).2.1.rotateStartPeriod = some ps := by
    rw [hrsp, hra, hps]; simp
  have hpct2 : (getData st now nR rP oracle).2.1.prevCheckTime = some pc := by
    rw [hpct, hpc]; simp
  simp only [shouldRotate, hdata, hcfg.1, hrule, hrat2, hrsp2, hpct2, Option.getD_some,
    reduceCtorEq, if_true, if_false, reduceIte]
  split_ifs <;> simp [*]

/-- C1 (witness for the amended theorem) at a concrete forced check. -/
theorem shouldRotate_time_rule_witness :
    (shouldRotate ⟨Rule.time, 0, some 9000, some 4000, some 5000, some 7⟩ true 1000
      id id [Except.ok 7]).1 =
      (true || decide (Int.tdiv 9000 1000 ≤ Int.tdiv 1000 1000)
        || decide (Int.tdiv 5000 1000 < Int.tdiv 4000 1000)) :=
  shouldRotate_time_rule ⟨Rule.time, 0, some 9000, some 4000, some 5000, some 7⟩ true
    1000 9000 5000 4000 7 id id [Except.ok 7] rfl rfl rfl rfl rfl

/-! # C2: the size rule of `shouldRotate` -/

/-- C2.  For a size-rule handler, `shouldRotate` reports true exactly when
    the check cycle observed a size (the snapshot yielded data) and that
    size strictly exceeds the configured threshold.  Cycles that observe
    nothing (stat failure, or the external-truncation reopen) report
    false. -/
theorem shouldRotate_size_rule (st : RotState) (force : Bool) (now : Int)
    (nR rP : Int → Int) (oracle : List (Except ErrCode Int))
    (hrule : st.rule = Rule.size) :
    (shouldRotate st force now nR rP oracle).1 = true ↔
      ∃ sz, (getData st now nR rP oracle).1 = some sz ∧ st.maxSize < sz := by
  have hcfg := getData_config_eq oracle st now nR rP
  simp only [shouldRotate]
  match hdata : (getData st now nR rP oracle).1 with
  | none => simp
  | some v =>
    have : ((getData st now nR rP oracle).2.1).rule = Rule.size := by rw [hcfg.1, hrule]
    simp [this, hcfg.2]

/-- C2 (witness): a 150-byte file exceeds a 100-byte threshold. -/
theorem shouldRotate_size_rule_witness :
    (shouldRotate ⟨Rule.size, 100, none, none, none, none⟩ false 0 id id
      [Except.ok 150]).1 = true :=
  (shouldRotate_size_rule ⟨Rule.size, 100, none, none, none, none⟩ false 0 id id
    [Except.ok 150] rfl).mpr ⟨150, rfl, by decide⟩

/-! # C10: stat-failure handling in `_getData` -/

/-- C10 (code evaluated at the failing input).  First conjunct: the stat
    fails with ENOENT and the retried stat succeeds with size 5, yet the
    cycle yields no data: the source passes `that._getData()` to `then` as
    a non-function, so the retried result is discarded and the promise
    resolves with the reopen value.  The trace shows the reopen and the
    retried stat; the retried call still updates the tracker state.
    Second conjunct: any other stat error logs, reopens, and yields no
    data. -/
theorem getData_enoent_retry_discarded :
    getData ⟨Rule.size, 100, none, none, none, none⟩ 1000 id id
        [Except.error ErrCode.enoent, Except.ok 5]
      = (none, ⟨Rule.size, 100, none, none, some 1000, some 5⟩,
          [FsAct.statFile, FsAct.closeStream, FsAct.openStream, FsAct.statFile])
    ∧ getData ⟨Rule.size, 100, none, none, none, none⟩ 1000 id id
        [Except.error ErrCode.other]
      = (none, ⟨Rule.size, 100, none, none, none, none⟩,
          [FsAct.statFile, FsAct.logError, FsAct.closeStream, FsAct.openStream]) := by
  constructor
  · decide
  · decide

/-! # C9: exhausted lock retries -/

/-- C9.  When the advisory lock cannot be acquired, the rotate protocol
    performs no destructive action: the trace is exactly the failed lock
    attempt followed by a stream reopen; for the time rule the schedule is
    still recomputed so the missed boundary is not retried; and `doRotate`
    always invokes its completion callback, so no failure reaches the
    logging caller. -/
theorem rotate_lock_failure (st : RotState) (now : Int) (nR rP : Int → Int)
    (statRes : Except ErrCode Int) (accessRes : Except ErrCode Unit) (rok : Bool)
    (listing : List SizeName) (maxFiles : Nat) (oracle2 : List (Except ErrCode Int))
    (hrule : st.rule = Rule.time) :
    (rotate st now nR rP false statRes accessRes rok listing maxFiles oracle2).2
      = [FsAct.lockFailA, FsAct.closeStream, FsAct.openStream]
    ∧ (rotate st now nR rP false statRes accessRes rok listing maxFiles oracle2).1
      = reopenState (recomputeSchedule st now nR rP)
    ∧ FsAct.renameLiveTmp ∉
        (rotate st now nR rP false statRes accessRes rok listing maxFiles oracle2).2
    ∧ (∀ t, FsAct.renameTmpArchive t ∉
        (rotate st now nR rP false statRes accessRes rok listing maxFiles oracle2).2)
    ∧ (∀ rotatingNow force oracle,
        (doRotate st rotatingNow force now nR rP oracle false statRes accessRes rok
          listing maxFiles oracle2).2.2 = true) := by
  refine ⟨?_, ?_, ?_, ?_, ?_⟩
  · simp [rotate, hrule, reopenActs]
  · simp [rotate, hrule, reopenState, recomputeSchedule]
  · simp [rotate, hrule, reopenActs]
  · intro t; simp [rotate, hrule, reopenActs]
  · intro rotatingNow force oracle
    simp only [doRotate]
    split <;> rfl

/-- C9 (witness) at a concrete time-rule state. -/
theorem rotate_lock_failure_witness :
    (rotate ⟨Rule.time, 0, some 9000, some 4000, some 5000, some 7⟩ 1000 id id false
      (Except.ok 3) (Except.error ErrCode.enoent) true [] 2 []).2
      = [FsAct.lockFailA, FsAct.closeStream, FsAct.openStream] :=
  (rotate_lock_failure ⟨Rule.time, 0, some 9000, some 4000, some 5000, some 7⟩ 1000 id id
    (Except.ok 3) (Except.error ErrCode.enoent) true [] 2 [] rfl).1

/-! # C3: re-verification after the lock is acquired -/

/-- C3 (counterexample).  The claim says that for the size rule the
    protocol re-stats the live file and confirms the size still exceeds
    the threshold before renaming.  With threshold 100 and a post-lock
    stat of 0 bytes, the live file is renamed anyway: the post-lock stat
    result is never compared against the threshold. -/
theorem rotate_size_reverify_claim_false :
    FsAct.renameLiveTmp ∈ (rotate ⟨Rule.size, 100, none, none, none, none⟩ 0 id id true
      (Except.ok 0) (Except.error ErrCode.enoent) true [SizeName.tmp] 2 [Except.ok 0]).2
    ∧ ¬((0 : Int) > 100) := by
  constructor
  · decide
  · decide

/-- C3 (amended).  Once locked, the protocol re-verifies as follows.  Time
    rule: it checks whether the archive file named for the current period
    start exists; if it does, the destructive steps are skipped, the
    stream is reopened, the lock is released, and the schedule is
    recomputed.  Size rule: the live file is re-statted, and a stat
    failure aborts the destructive steps (third conjunct), but a
    successful stat leads to the rename regardless of the observed size —
    no comparison against the threshold is made (second conjunct). -/
theorem rotate_reverify_under_lock (st : RotState) (now : Int) (nR rP : Int → Int)
    (sz ps : Int) (rok : Bool) (accessRes : Except ErrCode Unit) (e : ErrCode)
    (listing : List SizeName) (maxFiles : Nat) (oracle2 : List (Except ErrCode Int))
    (hps : st.rotateStartPeriod = some ps) :
    (st.rule = Rule.time →
      (rotate st now nR rP true (Except.ok sz) (Except.ok ()) rok listing maxFiles oracle2).2
        = [FsAct.lockOkA, FsAct.statFile, FsAct.accessArchive ps, FsAct.closeStream,
            FsAct.openStream, FsAct.unlockA]
      ∧ (rotate st now nR rP true (Except.ok sz) (Except.ok ()) rok listing maxFiles
          oracle2).1 = recomputeSchedule (reopenState st) now nR rP)
    ∧ (st.rule = Rule.size →
        FsAct.renameLiveTmp ∈
          (rotate st now nR rP true (Except.ok sz) accessRes rok listing maxFiles oracle2).2)
    ∧ (rotate st now nR rP true (Except.error e) accessRes rok listing maxFiles oracle2).2
        = [FsAct.lockOkA, FsAct.statFile, FsAct.logError, FsAct.unlockA] := by
  refine ⟨?_, ?_, ?_⟩
  · intro hrule
    constructor
    · simp [rotate, hrule, hps, reopenActs]
    · simp [rotate, hrule, hps, reopenActs]
  · intro hrule
    simp [rotate, hrule, reopenActs]
  · simp [rotate]

/-- C3 (witness): the already-rotated time-rule path at a concrete
    state. -/
theorem rotate_reverify_witness :
    (rotate ⟨Rule.time, 0, some 9000, some 4000, some 5000, some 7⟩ 1000 id id true
      (Except.ok 3) (Except.ok ()) true [] 2 []).2
      = [FsAct.lockOkA, FsAct.statFile, FsAct.accessArchive 4000, FsAct.closeStream,
          FsAct.openStream, FsAct.unlockA] :=
  ((rotate_reverify_under_lock ⟨Rule.time, 0, some 9000, some 4000, some 5000, some 7⟩
    1000 id id 3 4000 true (Except.ok ()) ErrCode.other [] 2 [] rfl).1 rfl).1

/-! # C4: the destructive sequence -/

/-- C4.  When the time rule re-verifies rotation as necessary (the archive
    for the current period start does not exist), the trace is exactly:
    lock, post-lock stat, archive-existence check, rename of the live file
    to the temporary sibling, close of the old stream, open of a fresh
    stream at the original path, rename of the temporary file to the
    archive name for the period start, pruning, the trailing tracker
    refresh, unlock.  Every archive rename in the trace names the period
    start, never the current instant. -/
theorem rotate_destructive_sequence (st : RotState) (now : Int) (nR rP : Int → Int)
    (sz ps : Int) (listing : List SizeName) (maxFiles : Nat)
    (oracle2 : List (Except ErrCode Int))
    (hrule : st.rule = Rule.time) (hps : st.rotateStartPeriod = some ps) :
    (rotate st now nR rP true (Except.ok sz) (Except.error ErrCode.enoent) true listing
      maxFiles oracle2).2
      = [FsAct.lockOkA, FsAct.statFile, FsAct.accessArchive ps, FsAct.renameLiveTmp,
          FsAct.closeStream, FsAct.openStream, FsAct.renameTmpArchive ps, FsAct.prune]
        ++ (getData (reopenState st) now nR rP oracle2).2.2 ++ [FsAct.unlockA]
    ∧ ∀ t, FsAct.renameTmpArchive t ∈
        (rotate st now nR rP true (Except.ok sz) (Except.error ErrCode.enoent) true listing
          maxFiles oracle2).2 → t = ps := by
  have htrace : (rotate st now nR rP true (Except.ok sz) (Except.error ErrCode.enoent) true
      listing maxFiles oracle2).2
      = [FsAct.lockOkA, FsAct.statFile, FsAct.accessArchive ps, FsAct.renameLiveTmp,
          FsAct.closeStream, FsAct.openStream, FsAct.renameTmpArchive ps, FsAct.prune]
        ++ (getData (reopenState st) now nR rP oracle2).2.2 ++ [FsAct.unlockA] := by
    simp [rotate, hrule, hps, reopenActs]
  refine ⟨htrace, ?_⟩
  intro t hmem
  rw [htrace] at hmem
  simp only [List.mem_append, List.mem_cons, List.mem_singleton] at hmem
  rcases hmem with ((h | h | h | h | h | h | h | h) | h) | h
  · exact absurd h (by simp)
  · exact absurd h (by simp)
  · exact absurd h (by simp)
  · exact absurd h (by simp)
  · exact absurd h (by simp)
  · exact absurd h (by simp)
  · exact (FsAct.renameTmpArchive.injEq t ps).mp (by exact congrArg id h) |>.symm ▸ rfl
  · exact absurd h (by simp)
  · have := getData_acts_safe oracle2 (reopenState st) now nR rP _ h
    rcases this with h1 | h1 | h1 | h1 <;> exact absurd h1 (by simp)
  · exact absurd h (by simp)

/-- C4 (witness) at a concrete state and oracle. -/
theorem rotate_destructive_sequence_witness :
    (rotate ⟨Rule.time, 0, some 9000, some 4000, some 5000, some 7⟩ 1000 id id true
      (Except.ok 3) (Except.error ErrCode.enoent) true [] 2 [Except.ok 0]).2
      = [FsAct.lockOkA, FsAct.statFile, FsAct.accessArchive 4000, FsAct.renameLiveTmp,
          FsAct.closeStream, FsAct.openStream, FsAct.renameTmpArchive 4000, FsAct.prune]
        ++ (getData (reopenState ⟨Rule.time, 0, some 9000, some 4000, some 5000, some 7⟩)
            1000 id id [Except.ok 0]).2.2 ++ [FsAct.unlockA] :=
  (rotate_destructive_sequence ⟨Rule.time, 0, some 9000, some 4000, some 5000, some 7⟩
    1000 id id 3 4000 [] 2 [Except.ok 0] rfl rfl).1

/-! # C6: timer arming bound and the emit-path gate -/

/-- C6.  A rotation timer is armed exactly for delays in (0, 2147483647]
    ms; a longer delay arms nothing; the per-emit throttled rotation check
    never runs under the time rule; hence with such a delay no time-based
    rotation trigger exists.  The final conjunct instantiates this: from
    2026-06-15 12:00, the yearly granularity computes a delay to the next
    boundary far above the bound. -/
theorem setRotateTimeout_bound (tv : Int) (nct : Option Int) (now : Int)
    (h : 2147483647 < tv) :
    ¬ timeTriggerPossible Rule.time tv nct now
    ∧ (∀ v : Int, setRotateTimeout v = some v ↔ 0 < v ∧ v ≤ 2147483647)
    ∧ emitChecksRotate Rule.time nct now = false
    ∧ 2147483647 < rotateTimeoutValue yearlyTimeRate ⟨2026, 5, 15, 12, 0, 0, 0⟩
    ∧ setRotateTimeout (rotateTimeoutValue yearlyTimeRate ⟨2026, 5, 15, 12, 0, 0, 0⟩)
      = none := by
  refine ⟨?_, ?_, ?_, ?_, ?_⟩
  · intro hc
    rcases hc with hc | hc
    · exact hc (by simp [setRotateTimeout]; omega)
    · simp [emitChecksRotate] at hc
  · intro v
    constructor
    · intro hv
      by_contra hcon
      simp [setRotateTimeout, hcon] at hv
    · intro hv
      simp [setRotateTimeout, hv]
  · simp [emitChecksRotate]
  · decide
  · decide

/-- C6 (witness) at a concrete over-bound delay. -/
theorem setRotateTimeout_bound_witness :
    ¬ timeTriggerPossible Rule.time 3000000000 none 0 :=
  (setRotateTimeout_bound 3000000000 none 0 (by decide)).1

/-! # C8: maxSize parsing -/

/-- A digit prefix extends the scanner's accumulator. -/
theorem bytesScanA_digit (acc : Option Nat) (c : Char) (cs : List Char) (h : c.isDigit = true) :
    bytesScanA acc (c :: cs) = bytesScanA (some ((acc.getD 0) * 10 + (c.toNat - 48))) cs := by
  rw [bytesScanA.eq_def]
  split <;> simp_all

/-- A unit suffix closes a pending digit run with the unit multiplier. -/
theorem bytesScanA_unit (u : ByteUnit) (n : Nat) (rest : List Char) :
    bytesScanA (some n) (unitChars u ++ rest) = unitVal u * n + bytesScanA none rest := by
  cases u <;> simp [unitChars, unitVal, bytesScanA]

/-- A full digit run followed by a unit contributes its token value. -/
theorem bytesScanA_digits (u : ByteUnit) (rest : List Char) :
    ∀ (ds : List Char) (a : Nat), (∀ c ∈ ds, c.isDigit = true) →
      bytesScanA (some a) (ds ++ (unitChars u ++ rest))
        = unitVal u * (ds.foldl (fun n c => n * 10 + (c.toNat - 48)) a) + bytesScanA none rest
  | [], a, _ => by simpa using bytesScanA_unit u a rest
  | c :: ds, a, h => by
    rw [List.cons_append, bytesScanA_digit _ c _ (h c (by simp))]
    simpa using bytesScanA_digits u rest ds (a * 10 + (c.toNat - 48))
      (fun x hx => h x (by simp [hx]))

/-- C8.  A maxSize string made of digit-and-suffix tokens with b, kb, mb
    or gb suffixes parses to the sum of the token values, where b = 1,
    kb = 2 to the 10th, mb = 2 to the 20th, gb = 2 to the 30th; an integer
    maxSize is taken as the byte count directly. -/
theorem bytes_parses_tokens (toks : List (List Char × ByteUnit))
    (h : ∀ t ∈ toks, t.1 ≠ [] ∧ ∀ c ∈ t.1, c.isDigit = true) :
    bytes ((toks.map fun t => t.1 ++ unitChars t.2).flatten)
      = (toks.map fun t => unitVal t.2 * digitsVal t.1).sum
    ∧ ∀ n : Int, resolveMaxSize (MaxSizeOpt.int n) = n := by
  refine ⟨?_, fun n => rfl⟩
  induction toks with
  | nil => simp [bytes, bytesScanA]
  | cons t toks ih =>
    obtain ⟨ds, u⟩ := t
    obtain ⟨hne, hdig⟩ := h (ds, u) (by simp)
    match ds, hne with
    | c :: ds, _ =>
      have hih := ih (fun x hx => h x (by simp [hx]))
      rw [bytes] at *
      simp only [List.map_cons, List.flatten_cons, List.cons_append, List.append_assoc]
      rw [bytesScanA_digit none c _ (hdig c (by simp))]
      rw [bytesScanA_digits u _ ds (Option.getD none 0 * 10 + (c.toNat - 48))
        (fun x hx => hdig x (by simp [hx]))]
      simp [digitsVal, hih, List.sum_cons]

/-- C8 (witness): "1kb5b" parses to 1024 + 5. -/
theorem bytes_parses_tokens_witness :
    bytes ['1', 'k', 'b', '5', 'b'] = 1029 := by
  have h := bytes_parses_tokens [(['1'], ByteUnit.kb), (['5'], ByteUnit.b)] (by decide)
  simpa [digitsVal, unitVal, unitChars] using h.1

/-! # C5: size-based renumbering -/

/-- Insertion sort of an ascending run of numbered names is the
    identity. -/
theorem sizeSort_range (k : Nat) : ∀ s, sizeSort ((List.range' s k).map SizeName.num)
    = (List.range' s k).map SizeName.num := by
  induction k with
  | zero => intro s; simp [sizeSort]
  | succ k ih =>
    intro s
    rw [List.range'_succ]
    simp only [List.map_cons, sizeSort, ih (s+1)]
    cases k with
    | zero => simp [sizeInsert]
    | succ k => rw [List.range'_succ]; simp [sizeInsert, sizeLe]

/-- The source comparator leaves a list that is already in walk order
    (temporary file first, ranks ascending) unchanged. -/
theorem sizeSort_sorted_id (k : Nat) :
    sizeSort (SizeName.tmp :: (List.range' 1 k).map SizeName.num)
      = SizeName.tmp :: (List.range' 1 k).map SizeName.num := by
  simp only [sizeSort, sizeSort_range k 1]
  cases hk : (List.range' 1 k).map SizeName.num with
  | nil => simp [sizeInsert]
  | cons a l => simp [sizeInsert, sizeLe]

/-- On an ascending run starting at position a, each loop step sees the
    rank equal to its position. -/
theorem sizeWalkAsc_range (F : Nat) (n : Nat) : ∀ (a : Nat),
    sizeWalkAsc F a ((List.range' a n).map SizeName.num)
      = (List.range' a n).map (fun i => sizeStep F i (SizeName.num i)) := by
  induction n with
  | zero => intro a; simp [sizeWalkAsc]
  | succ n ih =>
    intro a
    rw [List.range'_succ]
    simp [sizeWalkAsc, ih (a+1)]

/-- Every list position contributes its step to the walk. -/
theorem sizeWalkAsc_get (F : Nat) : ∀ (l : List SizeName) (j i : Nat) (x : SizeName),
    l.get? i = some x → sizeStep F (j + i) x ∈ sizeWalkAsc F j l := by
  intro l
  induction l with
  | nil => intro j i x h; simp at h
  | cons a l ih =>
    intro j i x h
    cases i with
    | zero => simp at h; subst h; simp [sizeWalkAsc]
    | succ i =>
      simp only [List.get?_cons_succ] at h
      have := ih (j+1) i x h
      simp only [sizeWalkAsc, List.mem_cons]
      right
      have harith : j + (i + 1) = j + 1 + i := by omega
      rw [harith]
      exact this


/-- Effect of a block of deletions on the file set. -/
theorem applyFsList_deletes : ∀ (is : List Nat) (S : SizeName → Bool) (z : SizeName),
    applyFsList (is.map fun i => FsAct.delSize (SizeName.num i)) S z
      = if (∃ i ∈ is, z = SizeName.num i) then false else S z := by
  intro is
  induction is with
  | nil => intro S z; simp [applyFsList]
  | cons a is ih =>
    intro S z
    simp only [List.map_cons, applyFsList, List.foldl_cons]
    rw [show List.foldl (fun t a => applyFs a t) (applyFs (FsAct.delSize (SizeName.num a)) S)
        (is.map fun i => FsAct.delSize (SizeName.num i))
      = applyFsList (is.map fun i => FsAct.delSize (SizeName.num i))
        (applyFs (FsAct.delSize (SizeName.num a)) S) from rfl]
    rw [ih]
    by_cases hz : z = SizeName.num a
    · subst hz
      by_cases hmem : ∃ i ∈ is, SizeName.num a = SizeName.num i <;>
        simp [hmem, applyFs]
    · by_cases hmem : ∃ i ∈ is, z = SizeName.num i
      · simp only [if_pos hmem]
        have hcons : ∃ i ∈ a :: is, z = SizeName.num i := by
          obtain ⟨i, hi, hzi⟩ := hmem; exact ⟨i, by simp [hi], hzi⟩
        rw [if_pos hcons]
      · have hcons : ¬ ∃ i ∈ a :: is, z = SizeName.num i := by
          rintro ⟨i, hi, hzi⟩
          rcases List.mem_cons.mp hi with rfl | hi2
          · exact hz hzi
          · exact hmem ⟨i, hi2, hzi⟩
        rw [if_neg hmem, if_neg hcons]
        simp [applyFs, hz]


theorem applyFsList_cons (a : FsAct) (acts : List FsAct) (S : SizeName → Bool) :
    applyFsList (a :: acts) S = applyFsList acts (applyFs a S) := rfl

theorem applyFsList_append (xs ys : List FsAct) (S : SizeName → Bool) :
    applyFsList (xs ++ ys) S = applyFsList ys (applyFsList xs S) :=
  List.foldl_append _ _ _ _

/-- Effect of the descending rename chain rank i to rank i+1,
    i = m down to 1, on the file set. -/
theorem applyFsList_renames : ∀ (m : Nat) (S : SizeName → Bool),
    (applyFsList (((List.range' 1 m).reverse).map
        (fun i => FsAct.renameSize (SizeName.num i) (SizeName.num (i+1)))) S SizeName.tmp
      = S SizeName.tmp)
    ∧ (∀ j : Nat, applyFsList (((List.range' 1 m).reverse).map
        (fun i => FsAct.renameSize (SizeName.num i) (SizeName.num (i+1)))) S (SizeName.num j)
      = if 2 ≤ j ∧ j ≤ m + 1 then S (SizeName.num (j - 1))
        else if j = 1 ∧ 1 ≤ m then false
        else S (SizeName.num j)) := by
  intro m
  induction m with
  | zero =>
    intro S
    constructor
    · simp [applyFsList]
    · intro j
      simp only [List.range', List.reverse_nil, List.map_nil]
      rw [show applyFsList [] S = S from rfl]
      split_ifs with h1 h2
      · omega
      · omega
      · rfl
  | succ m ih =>
    intro S
    have hsplit : ((List.range' 1 (m + 1)).reverse).map
        (fun i => FsAct.renameSize (SizeName.num i) (SizeName.num (i+1)))
        = FsAct.renameSize (SizeName.num (m + 1)) (SizeName.num (m + 2))
          :: ((List.range' 1 m).reverse).map
              (fun i => FsAct.renameSize (SizeName.num i) (SizeName.num (i+1))) := by
      rw [List.range'_concat]
      have h1 : 1 + 1 * m = m + 1 := by omega
      rw [h1]
      simp
    rw [hsplit]
    set SS := applyFs (FsAct.renameSize (SizeName.num (m + 1)) (SizeName.num (m + 2))) S
      with hSS
    rw [applyFsList_cons]
    have htmp : SS SizeName.tmp = S SizeName.tmp := by simp [hSS, applyFs]
    have hv1 : ∀ i : Nat, SS (SizeName.num i)
        = if i = m + 2 then S (SizeName.num (m + 1))
          else if i = m + 1 then false else S (SizeName.num i) := by
      intro i
      simp only [hSS, applyFs, SizeName.num.injEq]
    constructor
    · rw [(ih SS).1]
      exact htmp
    · intro j
      rw [(ih SS).2 j]
      by_cases hA : 2 ≤ j ∧ j ≤ m + 1
      · rw [if_pos hA, if_pos (show 2 ≤ j ∧ j ≤ m + 1 + 1 by omega), hv1 (j - 1),
          if_neg (by omega), if_neg (by omega)]
      · by_cases hB : j = m + 2
        · subst hB
          rw [if_neg hA, if_neg (by omega), hv1 (m + 2), if_pos rfl,
            if_pos (show 2 ≤ m + 2 ∧ m + 2 ≤ m + 1 + 1 by omega)]
          have harith : m + 2 - 1 = m + 1 := by omega
          rw [harith]
        · by_cases hC : j = 1
          · subst hC
            by_cases hm : 1 ≤ m
            · rw [if_neg hA, if_pos ⟨rfl, hm⟩, if_neg (by omega),
                if_pos (show (1 : Nat) = 1 ∧ 1 ≤ m + 1 by omega)]
            · have hm0 : m = 0 := by omega
              subst hm0
              rw [if_neg hA, if_neg (by omega), hv1 1, if_neg (by omega), if_pos (by omega),
                if_neg (by omega), if_pos (show (1 : Nat) = 1 ∧ 1 ≤ 0 + 1 by omega)]
          · rw [if_neg hA, if_neg (by omega), hv1 j, if_neg (by omega), if_neg (by omega),
              if_neg (by omega), if_neg (by omega)]


/-- C5.  On the sibling list tmp, 1..k (sorted ascending, temporary file
    first, which the source sort leaves unchanged: first conjunct), the
    walk deletes the file at every position at or beyond maxFiles and
    renames every other file to rank + 1, the temporary file to rank 1
    (second conjunct); applying the walk to the file set leaves no
    temporary file and exactly the compacted archives 1..maxFiles, with
    rank 1 holding the most recently closed file (third and fourth
    conjuncts). -/
theorem renameBySize_compacts (k F : Nat) (hF1 : 1 ≤ F) (hFk : F ≤ k + 1) :
    sizeSort (SizeName.tmp :: (List.range' 1 k).map SizeName.num)
      = SizeName.tmp :: (List.range' 1 k).map SizeName.num
    ∧ (∀ i x, (SizeName.tmp :: (List.range' 1 k).map SizeName.num).get? i = some x →
        (F ≤ i → FsAct.delSize x
          ∈ renameBySize F (SizeName.tmp :: (List.range' 1 k).map SizeName.num))
        ∧ (i < F → FsAct.renameSize x
            (match x with | SizeName.tmp => SizeName.num 1 | SizeName.num n => SizeName.num (n+1))
          ∈ renameBySize F (SizeName.tmp :: (List.range' 1 k).map SizeName.num)))
    ∧ applyFsList (renameBySize F (SizeName.tmp :: (List.range' 1 k).map SizeName.num))
        (fun z => decide (z ∈ SizeName.tmp :: (List.range' 1 k).map SizeName.num))
        SizeName.tmp = false
    ∧ (∀ j, applyFsList (renameBySize F (SizeName.tmp :: (List.range' 1 k).map SizeName.num))
        (fun z => decide (z ∈ SizeName.tmp :: (List.range' 1 k).map SizeName.num))
        (SizeName.num j) = decide (1 ≤ j ∧ j ≤ F)) := by
  set l := SizeName.tmp :: (List.range' 1 k).map SizeName.num with hl
  have hsort : sizeSort l = l := sizeSort_sorted_id k
  have hsplitr : List.range' 1 (F - 1) ++ List.range' F (k - (F - 1)) = List.range' 1 k := by
    have h := List.range'_append 1 (F - 1) (k - (F - 1)) 1
    simp only [one_mul] at h
    have e1 : 1 + (F - 1) = F := by omega
    have e2 : k - (F - 1) + (F - 1) = k := by omega
    rw [e1, e2] at h
    exact h
  have hlow : (List.range' 1 (F - 1)).map (fun i => sizeStep F i (SizeName.num i))
      = (List.range' 1 (F - 1)).map
          (fun i => FsAct.renameSize (SizeName.num i) (SizeName.num (i + 1))) := by
    refine List.map_congr_left (fun i hi => ?_)
    rw [List.mem_range'_1] at hi
    rw [sizeStep.eq_def, if_neg (by omega)]
  have hhigh : (List.range' F (k - (F - 1))).map (fun i => sizeStep F i (SizeName.num i))
      = (List.range' F (k - (F - 1))).map (fun i => FsAct.delSize (SizeName.num i)) := by
    refine List.map_congr_left (fun i hi => ?_)
    rw [List.mem_range'_1] at hi
    rw [sizeStep.eq_def, if_pos (by omega)]
  have hstep0 : sizeStep F 0 SizeName.tmp = FsAct.renameSize SizeName.tmp (SizeName.num 1) := by
    rw [sizeStep.eq_def, if_neg (by omega)]
  have hacts : renameBySize F l
      = ((List.range' F (k - (F - 1))).reverse).map (fun i => FsAct.delSize (SizeName.num i))
        ++ (((List.range' 1 (F - 1)).reverse).map
            (fun i => FsAct.renameSize (SizeName.num i) (SizeName.num (i + 1)))
          ++ [FsAct.renameSize SizeName.tmp (SizeName.num 1)]) := by
    rw [renameBySize, hsort, renameBySizeActs, hl]
    rw [show sizeWalkAsc F 0 (SizeName.tmp :: (List.range' 1 k).map SizeName.num)
        = sizeStep F 0 SizeName.tmp :: sizeWalkAsc F 1 ((List.range' 1 k).map SizeName.num)
      from rfl]
    rw [sizeWalkAsc_range F k 1, ← hsplitr, List.map_append, hlow, hhigh, hstep0]
    rw [List.reverse_cons, List.reverse_append, List.map_reverse, List.map_reverse,
      List.append_assoc]
  refine ⟨hsort, ?_, ?_, ?_⟩
  · intro i x hx
    have hmem := sizeWalkAsc_get F l 0 i x hx
    rw [Nat.zero_add] at hmem
    have hmem2 : sizeStep F i x ∈ renameBySize F l := by
      rw [renameBySize, hsort, renameBySizeActs, List.mem_reverse]
      exact hmem
    constructor
    · intro hge
      rw [sizeStep.eq_def, if_pos hge] at hmem2
      exact hmem2
    · intro hlt
      rw [sizeStep.eq_def, if_neg (by omega)] at hmem2
      exact hmem2
  · rw [hacts, applyFsList_append, applyFsList_append, applyFsList_cons,
      show ∀ S : SizeName → Bool, applyFsList [] S = S from fun _ => rfl]
    simp [applyFs]
  · intro j
    rw [hacts, applyFsList_append, applyFsList_append, applyFsList_cons,
      show ∀ S : SizeName → Bool, applyFsList [] S = S from fun _ => rfl]
    set S0 := fun z => decide (z ∈ l) with hS0
    set S1 := applyFsList
        (((List.range' F (k - (F - 1))).reverse).map (fun i => FsAct.delSize (SizeName.num i)))
        S0 with hS1
    have hdel2 : ∀ i : Nat, S1 (SizeName.num i)
        = if F ≤ i ∧ i ≤ k then false else S0 (SizeName.num i) := by
      intro i
      rw [hS1, applyFsList_deletes]
      by_cases hc : F ≤ i ∧ i ≤ k
      · rw [if_pos hc, if_pos ?_]
        refine ⟨i, ?_, rfl⟩
        rw [List.mem_reverse, List.mem_range'_1]
        omega
      · rw [if_neg hc, if_neg ?_]
        rintro ⟨i2, hi2, hzi⟩
        rw [List.mem_reverse, List.mem_range'_1] at hi2
        rw [SizeName.num.injEq] at hzi
        omega
    have hdeltmp : S1 SizeName.tmp = S0 SizeName.tmp := by
      rw [hS1, applyFsList_deletes]
      rw [if_neg ?_]
      rintro ⟨i2, hi2, hzi⟩
      cases hzi
    have hr := applyFsList_renames (F - 1) S1
    have hS0tmp : S0 SizeName.tmp = true := by simp [hS0, hl]
    have hS0num : ∀ i : Nat, S0 (SizeName.num i) = decide (1 ≤ i ∧ i ≤ k) := by
      intro i
      simp only [hS0, hl, List.mem_cons, List.mem_map, List.mem_range'_1,
        decide_eq_decide]
      constructor
      · rintro (h | ⟨i2, hi2, hzi⟩)
        · cases h
        · rw [SizeName.num.injEq] at hzi
          omega
      · intro hc
        right
        exact ⟨i, by omega, rfl⟩
    by_cases hj1 : j = 1
    · subst hj1
      rw [show applyFs (FsAct.renameSize SizeName.tmp (SizeName.num 1))
          (applyFsList (((List.range' 1 (F - 1)).reverse).map
            (fun i => FsAct.renameSize (SizeName.num i) (SizeName.num (i + 1)))) S1)
          (SizeName.num 1)
        = applyFsList (((List.range' 1 (F - 1)).reverse).map
            (fun i => FsAct.renameSize (SizeName.num i) (SizeName.num (i + 1)))) S1
            SizeName.tmp from by simp [applyFs]]
      rw [hr.1, hdeltmp, hS0tmp]
      rw [decide_eq_true (show 1 ≤ 1 ∧ 1 ≤ F by omega)]
    · rw [show applyFs (FsAct.renameSize SizeName.tmp (SizeName.num 1))
          (applyFsList (((List.range' 1 (F - 1)).reverse).map
            (fun i => FsAct.renameSize (SizeName.num i) (SizeName.num (i + 1)))) S1)
          (SizeName.num j)
        = applyFsList (((List.range' 1 (F - 1)).reverse).map
            (fun i => FsAct.renameSize (SizeName.num i) (SizeName.num (i + 1)))) S1
            (SizeName.num j) from by simp [applyFs, SizeName.num.injEq, hj1]]
      rw [hr.2 j]
      by_cases hA : 2 ≤ j ∧ j ≤ F - 1 + 1
      · rw [if_pos hA, hdel2 (j - 1), if_neg (by omega), hS0num (j - 1),
          decide_eq_true (show 1 ≤ j - 1 ∧ j - 1 ≤ k by omega),
          decide_eq_true (show 1 ≤ j ∧ j ≤ F by omega)]
      · rw [if_neg hA, if_neg (by omega), hdel2 j]
        by_cases hB : F ≤ j ∧ j ≤ k
        · rw [if_pos hB, decide_eq_false (show ¬(1 ≤ j ∧ j ≤ F) by omega)]
        · rw [if_neg hB, hS0num j, decide_eq_false (show ¬(1 ≤ j ∧ j ≤ F) by omega),
            decide_eq_false (show ¬(1 ≤ j ∧ j ≤ k) by omega)]

/-- C5 (witness): three siblings, retention two. -/
theorem renameBySize_compacts_witness :
    applyFsList (renameBySize 2 (SizeName.tmp :: (List.range' 1 2).map SizeName.num))
      (fun z => decide (z ∈ SizeName.tmp :: (List.range' 1 2).map SizeName.num))
      (SizeName.num 1) = true := by
  have h := renameBySize_compacts 2 2 (by decide) (by decide)
  simpa using h.2.2.2 1

/-! # C7: the granularity table and the raw-interval fallback -/


/-! # C7 helper layer: normalization and day-count arithmetic -/

theorem daysInMonth_bounds (y m : Int) : 28 ≤ daysInMonth y m ∧ daysInMonth y m ≤ 31 := by
  rw [daysInMonth]
  split_ifs <;> omega

theorem normDM_in_range (fuel : Nat) (y m d : Int) (h1 : 1 ≤ d) (h2 : d ≤ daysInMonth y m) :
    normDM fuel y m d = (y, m, d) := by
  cases fuel with
  | zero => rfl
  | succ n => rw [normDM, if_neg (by omega), if_neg (by omega)]

theorem normDM_over (fuel : Nat) (y m d : Int) (h1 : daysInMonth y m < d)
    (h2 : d - daysInMonth y m ≤ daysInMonth (nextYM y m).1 (nextYM y m).2) :
    normDM (fuel + 1) y m d = ((nextYM y m).1, (nextYM y m).2, d - daysInMonth y m) := by
  have hb := daysInMonth_bounds y m
  rw [normDM, if_neg (by omega), if_pos h1,
    normDM_in_range fuel _ _ _ (by omega) h2]

theorem normDM_under (fuel : Nat) (y m d : Int) (h1 : d < 1)
    (h2 : 1 ≤ d + daysInMonth (prevYM y m).1 (prevYM y m).2) :
    normDM (fuel + 1) y m d
      = ((prevYM y m).1, (prevYM y m).2, d + daysInMonth (prevYM y m).1 (prevYM y m).2) := by
  have hb := daysInMonth_bounds (prevYM y m).1 (prevYM y m).2
  rw [normDM, if_pos h1, normDM_in_range fuel _ _ _ h2 (by omega)]

theorem nextYM_prevYM (y m : Int) (hm : 0 ≤ m ∧ m ≤ 11) :
    nextYM (prevYM y m).1 (prevYM y m).2 = (y, m) := by
  rw [prevYM]
  by_cases h0 : m = 0
  · subst h0; simp [nextYM]
  · rw [if_neg h0, nextYM, if_neg (by omega)]
    simp only [Prod.mk.injEq, true_and]
    omega

/-- `daysFromCivil` is linear in the day argument. -/
theorem dfc_shift (y m d e : Int) : daysFromCivil y m (d + e) = daysFromCivil y m d + e := by
  simp only [daysFromCivil]
  ring

/-- Month adjacency: the day after the last day of a month is the first
    day of the next month. -/
theorem dfc_next (y m : Int) (hm : 0 ≤ m ∧ m ≤ 11) :
    daysFromCivil (nextYM y m).1 (nextYM y m).2 1 = daysFromCivil y m (daysInMonth y m + 1) := by
  obtain ⟨hm0, hm1⟩ := hm
  interval_cases m <;>
    · simp [daysFromCivil, daysInMonth, nextYM, isLeap]
      try split_ifs <;> omega


theorem newDate_eval (y m d h mi s c u : Int) (hy : 100 ≤ y) (hm : 0 ≤ m ∧ m ≤ 11)
    (hc : h * 3600000 + mi * 60000 + s * 1000 = c * 86400000 + u)
    (hu : 0 ≤ u ∧ u < 86400000)
    (hd : 1 ≤ d + c ∧ d + c ≤ daysInMonth y m) :
    newDate y m d h mi s
      = ⟨y, m, d + c, u / 3600000, u % 3600000 / 60000, u % 60000 / 1000, u % 1000⟩ := by
  rw [newDate]
  have h1 : ¬(0 ≤ y ∧ y ≤ 99) := by omega
  have h2 : m / 12 = 0 := by omega
  have h3 : m % 12 = m := by omega
  have h4 : (h * 3600000 + mi * 60000 + s * 1000) / 86400000 = c := by omega
  have h5 : (h * 3600000 + mi * 60000 + s * 1000) % 86400000 = u := by omega
  simp only [h1, if_false, h2, h3, h4, h5, add_zero]
  rw [normDM_in_range _ _ _ _ hd.1 hd.2]

theorem newDate_eval_over (y m d h mi s c u : Int) (hy : 100 ≤ y) (hm : 0 ≤ m ∧ m ≤ 11)
    (hc : h * 3600000 + mi * 60000 + s * 1000 = c * 86400000 + u)
    (hu : 0 ≤ u ∧ u < 86400000)
    (hd : daysInMonth y m < d + c)
    (hd2 : d + c - daysInMonth y m ≤ daysInMonth (nextYM y m).1 (nextYM y m).2) :
    newDate y m d h mi s
      = ⟨(nextYM y m).1, (nextYM y m).2, d + c - daysInMonth y m,
          u / 3600000, u % 3600000 / 60000, u % 60000 / 1000, u % 1000⟩ := by
  rw [newDate]
  have h1 : ¬(0 ≤ y ∧ y ≤ 99) := by omega
  have h2 : m / 12 = 0 := by omega
  have h3 : m % 12 = m := by omega
  have h4 : (h * 3600000 + mi * 60000 + s * 1000) / 86400000 = c := by omega
  have h5 : (h * 3600000 + mi * 60000 + s * 1000) % 86400000 = u := by omega
  simp only [h1, if_false, h2, h3, h4, h5, add_zero]
  rw [show (d + c).natAbs + 2 = ((d + c).natAbs + 1) + 1 from rfl,
    normDM_over _ _ _ _ hd hd2]

theorem newDate_eval_under (y m d h mi s c u : Int) (hy : 100 ≤ y) (hm : 0 ≤ m ∧ m ≤ 11)
    (hc : h * 3600000 + mi * 60000 + s * 1000 = c * 86400000 + u)
    (hu : 0 ≤ u ∧ u < 86400000)
    (hd : d + c < 1)
    (hd2 : 1 ≤ d + c + daysInMonth (prevYM y m).1 (prevYM y m).2) :
    newDate y m d h mi s
      = ⟨(prevYM y m).1, (prevYM y m).2,
          d + c + daysInMonth (prevYM y m).1 (prevYM y m).2,
          u / 3600000, u % 3600000 / 60000, u % 60000 / 1000, u % 1000⟩ := by
  rw [newDate]
  have h1 : ¬(0 ≤ y ∧ y ≤ 99) := by omega
  have h2 : m / 12 = 0 := by omega
  have h3 : m % 12 = m := by omega
  have h4 : (h * 3600000 + mi * 60000 + s * 1000) / 86400000 = c := by omega
  have h5 : (h * 3600000 + mi * 60000 + s * 1000) % 86400000 = u := by omega
  simp only [h1, if_false, h2, h3, h4, h5, add_zero]
  rw [show (d + c).natAbs + 2 = ((d + c).natAbs + 1) + 1 from rfl,
    normDM_under _ _ _ _ hd hd2]

/-- Reduce a month argument outside 0..11 to its normalized form. -/
theorem newDate_month_shift (y m d h mi s : Int) (hy : 100 ≤ y) (hy2 : 100 ≤ y + m / 12) :
    newDate y m d h mi s = newDate (y + m / 12) (m % 12) d h mi s := by
  rw [newDate, newDate]
  have h1 : ¬(0 ≤ y ∧ y ≤ 99) := by omega
  have h2 : ¬(0 ≤ y + m / 12 ∧ y + m / 12 ≤ 99) := by omega
  have h3 : m % 12 / 12 = 0 := by
    have := Int.emod_nonneg m (by norm_num : (12:Int) ≠ 0)
    have := Int.emod_lt_of_pos m (by norm_num : (0:Int) < 12)
    omega
  have h4 : m % 12 % 12 = m % 12 := by
    have := Int.emod_nonneg m (by norm_num : (12:Int) ≠ 0)
    have := Int.emod_lt_of_pos m (by norm_num : (0:Int) < 12)
    omega
  simp only [h1, if_false, h2, h3, h4, add_zero]


theorem dim11 (y : Int) : daysInMonth y 11 = 31 := by rw [daysInMonth]; norm_num

theorem dfc_le_year_end (y m d : Int) (hm : 0 ≤ m ∧ m ≤ 11)
    (hd : 1 ≤ d ∧ d ≤ daysInMonth y m) :
    daysFromCivil y m d ≤ daysFromCivil y 11 31 := by
  obtain ⟨hm0, hm1⟩ := hm
  interval_cases m <;>
    · simp [daysFromCivil, daysInMonth, isLeap] at hd ⊢
      try split_ifs at hd ⊢
      all_goals omega

theorem yearly_correct (now : JSDate) (hv : validDate now) :
    yearlyTimeRate now = ⟨now.year + 1, 0, 1, 0, 0, 0, 0⟩
    ∧ getTime now < getTime (yearlyTimeRate now)
    ∧ yearlyRotatePeriod (yearlyTimeRate now) = ⟨now.year, 0, 1, 0, 0, 0, 0⟩ := by
  obtain ⟨hy, hm0, hm1, hd1, hd2, hh1, hh2, hmi1, hmi2, hs1, hs2, hms1, hms2⟩ := hv
  have hb2 := daysInMonth_bounds (now.year + 1) 0
  have ha : yearlyTimeRate now = ⟨now.year + 1, 0, 1, 0, 0, 0, 0⟩ := by
    rw [yearlyTimeRate, newDate_eval (now.year + 1) 0 1 0 0 0 0 0 (by omega) (by omega)
      (by omega) (by omega) (by omega)]
    norm_num
  refine ⟨ha, ?_, ?_⟩
  · rw [ha]
    have h1 := dfc_le_year_end now.year now.month now.day ⟨hm0, hm1⟩ ⟨hd1, hd2⟩
    have h2 : daysFromCivil (now.year + 1) 0 1 = daysFromCivil now.year 11 31 + 1 := by
      have h3 := dfc_next now.year 11 (by omega)
      simp only [nextYM, if_true, dim11] at h3
      rw [h3, show (31 : Int) + 1 = 31 + 1 from rfl, dfc_shift]
    rw [getTime, getTime]
    simp only
    omega
  · rw [ha, yearlyRotatePeriod]
    simp only
    have hb3 := daysInMonth_bounds now.year 0
    rw [show now.year + 1 - 1 = now.year from by omega,
      newDate_eval now.year 0 1 0 0 0 0 0 (by omega) (by omega) (by omega) (by omega)
        (by omega)]
    norm_num

theorem monthly_correct (now : JSDate) (hv : validDate now) :
    monthlyTimeRate now = (if now.month = 11 then (⟨now.year + 1, 0, 1, 0, 0, 0, 0⟩ : JSDate)
        else ⟨now.year, now.month + 1, 1, 0, 0, 0, 0⟩)
    ∧ getTime now < getTime (monthlyTimeRate now)
    ∧ monthlyRotatePeriod (monthlyTimeRate now) = ⟨now.year, now.month, 1, 0, 0, 0, 0⟩ := by
  obtain ⟨hy, hm0, hm1, hd1, hd2, hh1, hh2, hmi1, hmi2, hs1, hs2, hms1, hms2⟩ := hv
  have hnext := dfc_next now.year now.month (by omega)
  have hb := daysInMonth_bounds now.year now.month
  have hbn := daysInMonth_bounds (nextYM now.year now.month).1 (nextYM now.year now.month).2
  have ha : monthlyTimeRate now
      = ⟨(nextYM now.year now.month).1, (nextYM now.year now.month).2, 1, 0, 0, 0, 0⟩ := by
    rw [monthlyTimeRate]
    by_cases h11 : now.month = 11
    · rw [h11, show (11 : Int) + 1 = 12 from rfl,
        newDate_month_shift _ _ _ _ _ _ (by omega) (by norm_num; omega),
        show (12 : Int) / 12 = 1 from by norm_num, show (12 : Int) % 12 = 0 from by norm_num,
        newDate_eval _ 0 1 0 0 0 0 0 (by omega) (by omega) (by omega) (by omega)
          (by have := daysInMonth_bounds (now.year + 1) 0; omega)]
      simp [nextYM]
    · rw [newDate_eval now.year (now.month + 1) 1 0 0 0 0 0 (by omega) (by omega) (by omega)
        (by omega) (by have := daysInMonth_bounds now.year (now.month + 1); omega)]
      rw [nextYM, if_neg h11]
      norm_num
  have hiff : (if now.month = 11 then (⟨now.year + 1, 0, 1, 0, 0, 0, 0⟩ : JSDate)
      else ⟨now.year, now.month + 1, 1, 0, 0, 0, 0⟩)
      = ⟨(nextYM now.year now.month).1, (nextYM now.year now.month).2, 1, 0, 0, 0, 0⟩ := by
    rw [nextYM]
    by_cases h11 : now.month = 11
    · rw [if_pos h11, if_pos h11]
    · rw [if_neg h11, if_neg h11]
  refine ⟨by rw [ha, hiff], ?_, ?_⟩
  · rw [ha, getTime, getTime]
    simp only
    have hsh : daysFromCivil now.year now.month (daysInMonth now.year now.month + 1)
        = daysFromCivil now.year now.month now.day
          + (daysInMonth now.year now.month + 1 - now.day) := by
      rw [← dfc_shift]
      congr 1
      ring
    omega
  · rw [ha, monthlyRotatePeriod]
    simp only
    by_cases h11 : now.month = 11
    · rw [nextYM, if_pos h11]
      simp only
      rw [show (0 : Int) - 1 = -1 from rfl,
        newDate_month_shift _ _ _ _ _ _ (by omega) (by norm_num; omega),
        show (-1 : Int) / 12 = -1 from by decide, show (-1 : Int) % 12 = 11 from by decide,
        show now.year + 1 + -1 = now.year from by omega,
        newDate_eval now.year 11 1 0 0 0 0 0 (by omega) (by omega) (by omega) (by omega)
          (by have := daysInMonth_bounds now.year 11; omega)]
      rw [h11]
      norm_num
    · rw [nextYM, if_neg h11]
      simp only
      rw [show now.month + 1 - 1 = now.month from by omega,
        newDate_eval now.year now.month 1 0 0 0 0 0 (by omega) (by omega) (by omega) (by omega)
          (by omega)]
      norm_num


theorem prevYM_nextYM (y m : Int) (hm : 0 ≤ m ∧ m ≤ 11) :
    prevYM (nextYM y m).1 (nextYM y m).2 = (y, m) := by
  rw [nextYM]
  by_cases h11 : m = 11
  · subst h11
    rw [if_pos rfl, prevYM, if_pos rfl]
    norm_num
  · rw [if_neg h11, prevYM, if_neg (by first | (simp only <;> omega) | omega)]
    simp only [Prod.mk.injEq, true_and]
    omega

theorem nextYM_bounds (y m : Int) (hm : 0 ≤ m ∧ m ≤ 11) :
    y ≤ (nextYM y m).1 ∧ (nextYM y m).1 ≤ y + 1
      ∧ 0 ≤ (nextYM y m).2 ∧ (nextYM y m).2 ≤ 11 := by
  rw [nextYM]
  split_ifs <;> simp only <;> omega

/-- `getTime` of a record whose time fields decompose a time of day u. -/
theorem getTime_decomp (Y M D u : Int) :
    getTime ⟨Y, M, D, u / 3600000, u % 3600000 / 60000, u % 60000 / 1000, u % 1000⟩
      = daysFromCivil Y M D * 86400000 + u := by
  rw [getTime]
  simp only
  omega

theorem daily_correct (now : JSDate) (hv : validDate now) :
    getTime (dailyTimeRate now) = getTime (truncDay now) + 86400000
    ∧ dailyTimeRate now = truncDay (dailyTimeRate now)
    ∧ validDate (dailyTimeRate now)
    ∧ dailyRotatePeriod (dailyTimeRate now) = truncDay now
    ∧ getTime now < getTime (dailyTimeRate now) := by
  obtain ⟨hy, hm0, hm1, hd1, hd2, hh1, hh2, hmi1, hmi2, hs1, hs2, hms1, hms2⟩ := hv
  have hb := daysInMonth_bounds now.year now.month
  have hnb := nextYM_bounds now.year now.month ⟨hm0, hm1⟩
  have hbn := daysInMonth_bounds (nextYM now.year now.month).1 (nextYM now.year now.month).2
  by_cases hdd : now.day + 1 ≤ daysInMonth now.year now.month
  · have ha : dailyTimeRate now = ⟨now.year, now.month, now.day + 1, 0, 0, 0, 0⟩ := by
      rw [dailyTimeRate, newDate_eval now.year now.month (now.day + 1) 0 0 0 0 0 (by omega)
        (by omega) (by omega) (by omega) (by omega)]
      norm_num
    have hshift := dfc_shift now.year now.month now.day 1
    refine ⟨?_, ?_, ?_, ?_, ?_⟩
    · rw [ha, truncDay, getTime, getTime]
      simp only
      omega
    · rw [ha, truncDay]
    · rw [ha, validDate]
      simp only
      refine ⟨by omega, by omega, by omega, by omega, by omega, by omega, by omega, by omega,
        by omega, by omega, by omega, by omega, by omega⟩
    · rw [ha, dailyRotatePeriod]
      simp only
      rw [show now.day + 1 - 1 = now.day from by omega,
        newDate_eval now.year now.month now.day 0 0 0 0 0 (by omega) (by omega) (by omega)
          (by omega) (by omega), truncDay]
      norm_num
    · rw [ha, getTime, getTime]
      simp only
      omega
  · have ha : dailyTimeRate now = ⟨(nextYM now.year now.month).1, (nextYM now.year now.month).2,
        now.day + 1 - daysInMonth now.year now.month, 0, 0, 0, 0⟩ := by
      rw [dailyTimeRate, newDate_eval_over now.year now.month (now.day + 1) 0 0 0 0 0 (by omega)
        (by omega) (by omega) (by omega) (by omega) (by omega)]
      norm_num
    have hnext := dfc_next now.year now.month ⟨hm0, hm1⟩
    have hshift : daysFromCivil now.year now.month (daysInMonth now.year now.month + 1)
        = daysFromCivil now.year now.month now.day + 1 := by
      rw [← dfc_shift]
      congr 1
      omega
    have hday1 : now.day + 1 - daysInMonth now.year now.month = 1 := by omega
    refine ⟨?_, ?_, ?_, ?_, ?_⟩
    · rw [ha, truncDay, getTime, getTime]
      simp only
      rw [hday1]
      omega
    · rw [ha, truncDay]
    · rw [ha, validDate]
      simp only
      refine ⟨by omega, by omega, by omega, by omega, by omega, by omega, by omega, by omega,
        by omega, by omega, by omega, by omega, by omega⟩
    · rw [ha, dailyRotatePeriod]
      simp only
      rw [hday1, show (1 : Int) - 1 = 0 from rfl,
        newDate_eval_under (nextYM now.year now.month).1 (nextYM now.year now.month).2 0 0 0 0
          0 0 (by omega) (by omega) (by omega) (by omega) (by omega)
          (by rw [prevYM_nextYM now.year now.month ⟨hm0, hm1⟩]; simp only; omega),
        prevYM_nextYM now.year now.month ⟨hm0, hm1⟩]
      simp only [truncDay, JSDate.mk.injEq]
      norm_num
      omega
    · rw [ha, getTime, getTime]
      simp only
      rw [hday1]
      omega


theorem weekly_correct (now : JSDate) (hv : validDate now) :
    getTime (weeklyTimeRate now)
      = getTime (truncDay now) + (7 - getDay now) * 86400000
    ∧ 1 ≤ 7 - getDay now ∧ 7 - getDay now ≤ 7
    ∧ weeklyTimeRate now = truncDay (weeklyTimeRate now)
    ∧ validDate (weeklyTimeRate now)
    ∧ getDay (weeklyTimeRate now) = 0
    ∧ getTime now < getTime (weeklyTimeRate now)
    ∧ getTime (weeklyRotatePeriod (weeklyTimeRate now))
        = getTime (weeklyTimeRate now) - 7 * 86400000
    ∧ getDay (weeklyRotatePeriod (weeklyTimeRate now)) = 0
    ∧ weeklyRotatePeriod (weeklyTimeRate now)
        = truncDay (weeklyRotatePeriod (weeklyTimeRate now)) := by
  obtain ⟨hy, hm0, hm1, hd1, hd2, hh1, hh2, hmi1, hmi2, hs1, hs2, hms1, hms2⟩ := hv
  have hb := daysInMonth_bounds now.year now.month
  have hnb := nextYM_bounds now.year now.month ⟨hm0, hm1⟩
  have hbn := daysInMonth_bounds (nextYM now.year now.month).1 (nextYM now.year now.month).2
  have hdow : getDay now = (daysFromCivil now.year now.month now.day + 4) % 7 := by
    rw [getDay]
  have hdow0 : 0 ≤ getDay now ∧ getDay now < 7 := by rw [hdow]; omega
  have hnext := dfc_next now.year now.month ⟨hm0, hm1⟩
  have hrel : daysFromCivil now.year now.month (daysInMonth now.year now.month + 1)
      = daysFromCivil now.year now.month now.day
        + (daysInMonth now.year now.month + 1 - now.day) := by
    rw [← dfc_shift]
    congr 1
    omega
  have hrelw : daysFromCivil now.year now.month (now.day + 7 - getDay now)
      = daysFromCivil now.year now.month now.day + (7 - getDay now) := by
    rw [← dfc_shift]
    congr 1
    ring
  -- the produced boundary, in both day-normalization cases
  have hmain : ∃ w : JSDate, weeklyTimeRate now = w
      ∧ w.hour = 0 ∧ w.minute = 0 ∧ w.second = 0 ∧ w.msec = 0
      ∧ 1000 ≤ w.year ∧ 0 ≤ w.month ∧ w.month ≤ 11
      ∧ 1 ≤ w.day ∧ w.day ≤ daysInMonth w.year w.month
      ∧ daysFromCivil w.year w.month w.day
          = daysFromCivil now.year now.month now.day + (7 - getDay now) := by
    by_cases hin : now.day + 7 - getDay now ≤ daysInMonth now.year now.month
    · refine ⟨⟨now.year, now.month, now.day + 7 - getDay now, 0, 0, 0, 0⟩, ?_,
        rfl, rfl, rfl, rfl, by simp only; omega, by simp only; omega, by simp only; omega,
        by simp only; omega, by simp only; omega, hrelw⟩
      rw [weeklyTimeRate, newDate_eval now.year now.month (now.day + 7 - getDay now) 0 0 0 0 0
        (by omega) (by omega) (by omega) (by omega) (by omega)]
      norm_num
    · refine ⟨⟨(nextYM now.year now.month).1, (nextYM now.year now.month).2,
        now.day + 7 - getDay now - daysInMonth now.year now.month, 0, 0, 0, 0⟩, ?_,
        rfl, rfl, rfl, rfl, by simp only; omega, by simp only; omega, by simp only; omega,
        by simp only; omega, by simp only; omega, ?_⟩
      · rw [weeklyTimeRate, newDate_eval_over now.year now.month (now.day + 7 - getDay now)
          0 0 0 0 0 (by omega) (by omega) (by omega) (by omega) (by omega) (by omega)]
        norm_num
      · simp only
        rw [show now.day + 7 - getDay now - daysInMonth now.year now.month
            = 1 + (now.day + 7 - getDay now - daysInMonth now.year now.month - 1) from
            by omega, dfc_shift, hnext, hrel]
        omega
  obtain ⟨w, hw, hwh, hwmi, hws, hwms, hwy, hwm0, hwm1, hwd1, hwd2, hwdfc⟩ := hmain
  have hwday : getDay w = 0 := by
    rw [getDay, hwdfc, hdow]
    omega
  have hgtw : getTime w = daysFromCivil now.year now.month now.day * 86400000
      + (7 - getDay now) * 86400000 := by
    rw [getTime, hwh, hwmi, hws, hwms, hwdfc]
    ring
  have hwbp := daysInMonth_bounds (prevYM w.year w.month).1 (prevYM w.year w.month).2
  -- the rotate period of the boundary
  have hrp : ∃ p : JSDate, weeklyRotatePeriod w = p
      ∧ p.hour = 0 ∧ p.minute = 0 ∧ p.second = 0 ∧ p.msec = 0
      ∧ daysFromCivil p.year p.month p.day = daysFromCivil w.year w.month w.day - 7 := by
    by_cases hin : 1 ≤ w.day - 7 + getDay w
    · refine ⟨⟨w.year, w.month, w.day - 7 + getDay w, 0, 0, 0, 0⟩, ?_, rfl, rfl, rfl, rfl, ?_⟩
      · rw [weeklyRotatePeriod, newDate_eval w.year w.month (w.day - 7 + getDay w) 0 0 0 0 0
          (by omega) (by omega) (by omega) (by omega) (by omega)]
        norm_num
      · simp only
        rw [show w.day - 7 + getDay w = w.day + (getDay w - 7) from by ring, dfc_shift, hwday]
        omega
    · have hnp := dfc_next (prevYM w.year w.month).1 (prevYM w.year w.month).2
        (by rw [prevYM]; split_ifs <;> simp only <;> omega)
      rw [nextYM_prevYM w.year w.month ⟨hwm0, hwm1⟩] at hnp
      simp only [Prod.fst, Prod.snd] at hnp
      refine ⟨⟨(prevYM w.year w.month).1, (prevYM w.year w.month).2,
        w.day - 7 + getDay w + daysInMonth (prevYM w.year w.month).1
          (prevYM w.year w.month).2, 0, 0, 0, 0⟩, ?_, rfl, rfl, rfl, rfl, ?_⟩
      · rw [weeklyRotatePeriod, newDate_eval_under w.year w.month (w.day - 7 + getDay w)
          0 0 0 0 0 (by omega) (by omega) (by omega) (by omega) (by omega) (by omega)]
        norm_num
      · simp only
        rw [show w.day - 7 + getDay w + daysInMonth (prevYM w.year w.month).1
              (prevYM w.year w.month).2
            = (daysInMonth (prevYM w.year w.month).1 (prevYM w.year w.month).2 + 1)
              + (w.day - 8 + getDay w) from by ring, dfc_shift, ← hnp, hwday]
        rw [show daysFromCivil w.year w.month 1
            = daysFromCivil w.year w.month (w.day + (1 - w.day)) from by congr 1; ring,
          dfc_shift]
        omega
  obtain ⟨p, hp, hph, hpmi, hps, hpms, hpdfc⟩ := hrp
  have hgtp : getTime p = getTime w - 7 * 86400000 := by
    rw [getTime, getTime, hph, hpmi, hps, hpms, hwh, hwmi, hws, hwms, hpdfc]
    ring
  refine ⟨?_, by omega, by omega, ?_, ?_, by rw [hw]; exact hwday, ?_, ?_, ?_, ?_⟩
  · rw [hw, hgtw, truncDay, getTime]
    simp only
    ring
  · rw [hw, truncDay]
    exact JSDate.ext rfl rfl rfl hwh hwmi hws hwms
  · rw [hw, validDate]
    refine ⟨by omega, by omega, by omega, by omega, by omega, by omega, by omega, by omega,
      by omega, by omega, by omega, by omega, by omega⟩
  · rw [hw, getTime, hgtw]
    have hdow2 := hdow0
    omega
  · rw [hw, hp, hgtp]
  · rw [hw, hp, getDay, hpdfc]
    rw [getDay] at hwday
    omega
  · rw [hw, hp, truncDay]
    exact JSDate.ext rfl rfl rfl hph hpmi hps hpms

theorem hourly_correct (now : JSDate) (hv : validDate now) :
    getTime (hourlyTimeRate now) = getTime (truncHour now) + 3600000
    ∧ hourlyTimeRate now = truncHour (hourlyTimeRate now)
    ∧ validDate (hourlyTimeRate now)
    ∧ hourlyRotatePeriod (hourlyTimeRate now) = truncHour now
    ∧ getTime now < getTime (hourlyTimeRate now) := by
  obtain ⟨hy, hm0, hm1, hd1, hd2, hh1, hh2, hmi1, hmi2, hs1, hs2, hms1, hms2⟩ := hv
  have hb := daysInMonth_bounds now.year now.month
  have hnb := nextYM_bounds now.year now.month ⟨hm0, hm1⟩
  have hbn := daysInMonth_bounds (nextYM now.year now.month).1 (nextYM now.year now.month).2
  by_cases h22 : now.hour ≤ 22
  · have ha : hourlyTimeRate now = ⟨now.year, now.month, now.day, now.hour + 1, 0, 0, 0⟩ := by
      rw [hourlyTimeRate, newDate_eval now.year now.month now.day (now.hour + 1) 0 0 0
        ((now.hour + 1) * 3600000) (by omega) (by omega) (by omega) (by omega) (by omega)]
      exact JSDate.ext (by first | (simp only <;> omega) | omega) (by first | (simp only <;> omega) | omega) (by first | (simp only <;> omega) | omega)
        (by first | (simp only <;> omega) | omega) (by first | (simp only <;> omega) | omega) (by first | (simp only <;> omega) | omega) (by first | (simp only <;> omega) | omega)
    refine ⟨?_, ?_, ?_, ?_, ?_⟩
    · rw [ha, truncHour, getTime, getTime]
      simp only
      omega
    · rw [ha, truncHour]
    · rw [ha, validDate]
      simp only
      omega
    · rw [ha, hourlyRotatePeriod]
      simp only
      rw [show now.hour + 1 - 1 = now.hour from by omega,
        newDate_eval now.year now.month now.day now.hour 0 0 0 (now.hour * 3600000) (by omega)
          (by omega) (by omega) (by omega) (by omega), truncHour]
      exact JSDate.ext (by first | (simp only <;> omega) | omega) (by first | (simp only <;> omega) | omega) (by first | (simp only <;> omega) | omega)
        (by first | (simp only <;> omega) | omega) (by first | (simp only <;> omega) | omega) (by first | (simp only <;> omega) | omega) (by first | (simp only <;> omega) | omega)
    · rw [ha, getTime, getTime]
      simp only
      omega
  · have h23 : now.hour = 23 := by omega
    by_cases hdd : now.day + 1 ≤ daysInMonth now.year now.month
    · have ha : hourlyTimeRate now = ⟨now.year, now.month, now.day + 1, 0, 0, 0, 0⟩ := by
        rw [hourlyTimeRate, h23, newDate_eval now.year now.month now.day (23 + 1) 0 0 1 0 (by omega)
          (by omega) (by omega) (by omega) (by omega)]
        exact JSDate.ext (by first | (simp only <;> omega) | omega) (by first | (simp only <;> omega) | omega) (by first | (simp only <;> omega) | omega)
          (by first | (simp only <;> omega) | omega) (by first | (simp only <;> omega) | omega) (by first | (simp only <;> omega) | omega)
          (by first | (simp only <;> omega) | omega)
      have hshift := dfc_shift now.year now.month now.day 1
      refine ⟨?_, ?_, ?_, ?_, ?_⟩
      · rw [ha, truncHour, getTime, getTime]
        simp only
        omega
      · rw [ha, truncHour]
      · rw [ha, validDate]
        simp only
        omega
      · rw [ha, hourlyRotatePeriod]
        simp only
        rw [show (0 : Int) - 1 = -1 from rfl,
          newDate_eval now.year now.month (now.day + 1) (-1) 0 0 (-1) 82800000 (by omega)
            (by omega) (by omega) (by omega) (by omega), truncHour]
        exact JSDate.ext (by first | (simp only <;> omega) | omega) (by first | (simp only <;> omega) | omega) (by first | (simp only <;> omega) | omega)
          (by first | (simp only <;> omega) | omega) (by first | (simp only <;> omega) | omega) (by first | (simp only <;> omega) | omega)
          (by first | (simp only <;> omega) | omega)
      · rw [ha, getTime, getTime]
        simp only
        omega
    · have ha : hourlyTimeRate now = ⟨(nextYM now.year now.month).1,
          (nextYM now.year now.month).2, now.day + 1 - daysInMonth now.year now.month,
          0, 0, 0, 0⟩ := by
        rw [hourlyTimeRate, h23, newDate_eval_over now.year now.month now.day (23 + 1) 0 0 1 0
          (by omega) (by omega) (by omega) (by omega) (by omega) (by omega)]
        exact JSDate.ext (by first | (simp only <;> omega) | omega) (by first | (simp only <;> omega) | omega) (by first | (simp only <;> omega) | omega)
          (by first | (simp only <;> omega) | omega) (by first | (simp only <;> omega) | omega) (by first | (simp only <;> omega) | omega)
          (by first | (simp only <;> omega) | omega)
      have hnext := dfc_next now.year now.month ⟨hm0, hm1⟩
      have hrel : daysFromCivil now.year now.month (daysInMonth now.year now.month + 1)
          = daysFromCivil now.year now.month now.day + 1 := by
        rw [← dfc_shift]
        congr 1
        omega
      have hday1 : now.day + 1 - daysInMonth now.year now.month = 1 := by omega
      refine ⟨?_, ?_, ?_, ?_, ?_⟩
      · rw [ha, truncHour, getTime, getTime]
        simp only
        rw [hday1]
        omega
      · rw [ha, truncHour]
      · rw [ha, validDate]
        simp only
        omega
      · rw [ha, hourlyRotatePeriod]
        simp only
        rw [hday1, show (0 : Int) - 1 = -1 from rfl,
          newDate_eval_under (nextYM now.year now.month).1 (nextYM now.year now.month).2 1
            (-1) 0 0 (-1) 82800000 (by omega) (by omega) (by omega) (by omega) (by omega)
            (by rw [prevYM_nextYM now.year now.month ⟨hm0, hm1⟩]; simp only; omega),
          prevYM_nextYM now.year now.month ⟨hm0, hm1⟩, truncHour]
        exact JSDate.ext (by first | (simp only <;> omega) | omega) (by first | (simp only <;> omega) | omega) (by first | (simp only <;> omega) | omega)
          (by first | (simp only <;> omega) | omega) (by first | (simp only <;> omega) | omega) (by first | (simp only <;> omega) | omega)
          (by first | (simp only <;> omega) | omega)
      · rw [ha, getTime, getTime]
        simp only
        rw [hday1]
        omega

theorem everyminute_correct (now : JSDate) (hv : validDate now) :
    getTime (everyminuteTimeRate now) = getTime (truncMin now) + 60000
    ∧ everyminuteTimeRate now = truncMin (everyminuteTimeRate now)
    ∧ validDate (everyminuteTimeRate now)
    ∧ everyminuteRotatePeriod (everyminuteTimeRate now) = truncMin now
    ∧ getTime now < getTime (everyminuteTimeRate now) := by
  obtain ⟨hy, hm0, hm1, hd1, hd2, hh1, hh2, hmi1, hmi2, hs1, hs2, hms1, hms2⟩ := hv
  have hb := daysInMonth_bounds now.year now.month
  have hnb := nextYM_bounds now.year now.month ⟨hm0, hm1⟩
  have hbn := daysInMonth_bounds (nextYM now.year now.month).1 (nextYM now.year now.month).2
  by_cases h58 : now.minute ≤ 58
  · have ha : everyminuteTimeRate now
        = ⟨now.year, now.month, now.day, now.hour, now.minute + 1, 0, 0⟩ := by
      rw [everyminuteTimeRate, newDate_eval now.year now.month now.day now.hour
        (now.minute + 1) 0 0 (now.hour * 3600000 + (now.minute + 1) * 60000) (by omega)
        (by omega) (by omega) (by omega) (by omega)]
      exact JSDate.ext (by first | (simp only <;> omega) | omega)
        (by first | (simp only <;> omega) | omega) (by first | (simp only <;> omega) | omega)
        (by first | (simp only <;> omega) | omega) (by first | (simp only <;> omega) | omega)
        (by first | (simp only <;> omega) | omega) (by first | (simp only <;> omega) | omega)
    refine ⟨?_, by rw [ha, truncMin], ?_, ?_, ?_⟩
    · rw [ha, truncMin, getTime, getTime]
      simp only
      omega
    · rw [ha, validDate]
      simp only
      omega
    · rw [ha, everyminuteRotatePeriod]
      simp only
      rw [show now.minute + 1 - 1 = now.minute from by omega,
        newDate_eval now.year now.month now.day now.hour now.minute 0 0
          (now.hour * 3600000 + now.minute * 60000) (by omega) (by omega) (by omega)
          (by omega) (by omega), truncMin]
      exact JSDate.ext (by first | (simp only <;> omega) | omega)
        (by first | (simp only <;> omega) | omega) (by first | (simp only <;> omega) | omega)
        (by first | (simp only <;> omega) | omega) (by first | (simp only <;> omega) | omega)
        (by first | (simp only <;> omega) | omega) (by first | (simp only <;> omega) | omega)
    · rw [ha, getTime, getTime]
      simp only
      omega
  · have h59 : now.minute = 59 := by omega
    by_cases h22 : now.hour ≤ 22
    · have ha : everyminuteTimeRate now
          = ⟨now.year, now.month, now.day, now.hour + 1, 0, 0, 0⟩ := by
        rw [everyminuteTimeRate, h59, newDate_eval now.year now.month now.day now.hour
          (59 + 1) 0 0 ((now.hour + 1) * 3600000) (by omega) (by omega) (by omega) (by omega)
          (by omega)]
        exact JSDate.ext (by first | (simp only <;> omega) | omega)
          (by first | (simp only <;> omega) | omega)
          (by first | (simp only <;> omega) | omega)
          (by first | (simp only <;> omega) | omega)
          (by first | (simp only <;> omega) | omega)
          (by first | (simp only <;> omega) | omega)
          (by first | (simp only <;> omega) | omega)
      refine ⟨?_, by rw [ha, truncMin], ?_, ?_, ?_⟩
      · rw [ha, truncMin, getTime, getTime]
        simp only
        omega
      · rw [ha, validDate]
        simp only
        omega
      · rw [ha, everyminuteRotatePeriod]
        simp only
        rw [show (0 : Int) - 1 = -1 from rfl,
          newDate_eval now.year now.month now.day (now.hour + 1) (-1) 0 0
            (now.hour * 3600000 + 59 * 60000) (by omega) (by omega) (by omega) (by omega)
            (by omega), truncMin]
        exact JSDate.ext (by first | (simp only <;> omega) | omega)
          (by first | (simp only <;> omega) | omega)
          (by first | (simp only <;> omega) | omega)
          (by first | (simp only <;> omega) | omega)
          (by first | (simp only <;> omega) | omega)
          (by first | (simp only <;> omega) | omega)
          (by first | (simp only <;> omega) | omega)
      · rw [ha, getTime, getTime]
        simp only
        omega
    · have h23 : now.hour = 23 := by omega
      by_cases hdd : now.day + 1 ≤ daysInMonth now.year now.month
      · have ha : everyminuteTimeRate now
            = ⟨now.year, now.month, now.day + 1, 0, 0, 0, 0⟩ := by
          rw [everyminuteTimeRate, h59, h23, newDate_eval now.year now.month now.day 23
            (59 + 1) 0 1 0 (by omega) (by omega) (by omega) (by omega) (by omega)]
          exact JSDate.ext (by first | (simp only <;> omega) | omega)
            (by first | (simp only <;> omega) | omega)
            (by first | (simp only <;> omega) | omega)
            (by first | (simp only <;> omega) | omega)
            (by first | (simp only <;> omega) | omega)
            (by first | (simp only <;> omega) | omega)
            (by first | (simp only <;> omega) | omega)
        have hshift := dfc_shift now.year now.month now.day 1
        refine ⟨?_, by rw [ha, truncMin], ?_, ?_, ?_⟩
        · rw [ha, truncMin, getTime, getTime]
          simp only
          omega
        · rw [ha, validDate]
          simp only
          omega
        · rw [ha, everyminuteRotatePeriod]
          simp only
          rw [show (0 : Int) - 1 = -1 from rfl,
            newDate_eval now.year now.month (now.day + 1) 0 (-1) 0 (-1) 86340000 (by omega)
              (by omega) (by omega) (by omega) (by omega), truncMin]
          exact JSDate.ext (by first | (simp only <;> omega) | omega)
            (by first | (simp only <;> omega) | omega)
            (by first | (simp only <;> omega) | omega)
            (by first | (simp only <;> omega) | omega)
            (by first | (simp only <;> omega) | omega)
            (by first | (simp only <;> omega) | omega)
            (by first | (simp only <;> omega) | omega)
        · rw [ha, getTime, getTime]
          simp only
          omega
      · have ha : everyminuteTimeRate now = ⟨(nextYM now.year now.month).1,
            (nextYM now.year now.month).2, now.day + 1 - daysInMonth now.year now.month,
            0, 0, 0, 0⟩ := by
          rw [everyminuteTimeRate, h59, h23, newDate_eval_over now.year now.month now.day 23
            (59 + 1) 0 1 0 (by omega) (by omega) (by omega) (by omega) (by omega) (by omega)]
          exact JSDate.ext (by first | (simp only <;> omega) | omega)
            (by first | (simp only <;> omega) | omega)
            (by first | (simp only <;> omega) | omega)
            (by first | (simp only <;> omega) | omega)
            (by first | (simp only <;> omega) | omega)
            (by first | (simp only <;> omega) | omega)
            (by first | (simp only <;> omega) | omega)
        have hnext := dfc_next now.year now.month ⟨hm0, hm1⟩
        have hrel : daysFromCivil now.year now.month (daysInMonth now.year now.month + 1)
            = daysFromCivil now.year now.month now.day + 1 := by
          rw [← dfc_shift]
          congr 1
          omega
        have hday1 : now.day + 1 - daysInMonth now.year now.month = 1 := by omega
        refine ⟨?_, by rw [ha, truncMin], ?_, ?_, ?_⟩
        · rw [ha, truncMin, getTime, getTime]
          simp only
          rw [hday1]
          omega
        · rw [ha, validDate]
          simp only
          omega
        · rw [ha, everyminuteRotatePeriod]
          simp only
          rw [hday1, show (0 : Int) - 1 = -1 from rfl,
            newDate_eval_under (nextYM now.year now.month).1 (nextYM now.year now.month).2 1
              0 (-1) 0 (-1) 86340000 (by omega) (by omega) (by omega) (by omega) (by omega)
              (by rw [prevYM_nextYM now.year now.month ⟨hm0, hm1⟩]; simp only; omega),
            prevYM_nextYM now.year now.month ⟨hm0, hm1⟩, truncMin]
          exact JSDate.ext (by first | (simp only <;> omega) | omega)
            (by first | (simp only <;> omega) | omega)
            (by first | (simp only <;> omega) | omega)
            (by first | (simp only <;> omega) | omega)
            (by first | (simp only <;> omega) | omega)
            (by first | (simp only <;> omega) | omega)
            (by first | (simp only <;> omega) | omega)
        · rw [ha, getTime, getTime]
          simp only
          rw [hday1]
          omega

theorem everysecond_correct (now : JSDate) (hv : validDate now) :
    getTime (everysecondTimeRate now) = getTime (truncSec now) + 1000
    ∧ everysecondTimeRate now = truncSec (everysecondTimeRate now)
    ∧ validDate (everysecondTimeRate now)
    ∧ everysecondRotatePeriod (everysecondTimeRate now) = truncSec now
    ∧ getTime now < getTime (everysecondTimeRate now) := by
  obtain ⟨hy, hm0, hm1, hd1, hd2, hh1, hh2, hmi1, hmi2, hs1, hs2, hms1, hms2⟩ := hv
  have hb := daysInMonth_bounds now.year now.month
  have hnb := nextYM_bounds now.year now.month ⟨hm0, hm1⟩
  have hbn := daysInMonth_bounds (nextYM now.year now.month).1 (nextYM now.year now.month).2
  by_cases hsA : now.second ≤ 58
  · have ha : everysecondTimeRate now
        = ⟨now.year, now.month, now.day, now.hour, now.minute, now.second + 1, 0⟩ := by
      rw [everysecondTimeRate, newDate_eval now.year now.month now.day now.hour now.minute
        (now.second + 1) 0
        (now.hour * 3600000 + now.minute * 60000 + (now.second + 1) * 1000) (by omega)
        (by omega) (by omega) (by omega) (by omega)]
      exact JSDate.ext (by first | (simp only <;> omega) | omega) (by first | (simp only <;> omega) | omega) (by first | (simp only <;> omega) | omega) (by first | (simp only <;> omega) | omega) (by first | (simp only <;> omega) | omega) (by first | (simp only <;> omega) | omega) (by first | (simp only <;> omega) | omega)
    refine ⟨?_, by rw [ha, truncSec], ?_, ?_, ?_⟩
    · rw [ha, truncSec, getTime, getTime]
      simp only
      omega
    · rw [ha, validDate]
      simp only
      omega
    · rw [ha, everysecondRotatePeriod]
      simp only
      rw [show now.second + 1 - 1 = now.second from by omega,
        newDate_eval now.year now.month now.day now.hour now.minute now.second 0
          (now.hour * 3600000 + now.minute * 60000 + now.second * 1000) (by omega) (by omega)
          (by omega) (by omega) (by omega), truncSec]
      exact JSDate.ext (by first | (simp only <;> omega) | omega) (by first | (simp only <;> omega) | omega) (by first | (simp only <;> omega) | omega) (by first | (simp only <;> omega) | omega) (by first | (simp only <;> omega) | omega) (by first | (simp only <;> omega) | omega) (by first | (simp only <;> omega) | omega)
    · rw [ha, getTime, getTime]
      simp only
      omega
  · have hs59 : now.second = 59 := by omega
    by_cases hmiA : now.minute ≤ 58
    · have ha : everysecondTimeRate now
          = ⟨now.year, now.month, now.day, now.hour, now.minute + 1, 0, 0⟩ := by
        rw [everysecondTimeRate, hs59, newDate_eval now.year now.month now.day now.hour
          now.minute (59 + 1) 0 (now.hour * 3600000 + (now.minute + 1) * 60000) (by omega)
          (by omega) (by omega) (by omega) (by omega)]
        exact JSDate.ext (by first | (simp only <;> omega) | omega) (by first | (simp only <;> omega) | omega) (by first | (simp only <;> omega) | omega) (by first | (simp only <;> omega) | omega) (by first | (simp only <;> omega) | omega) (by first | (simp only <;> omega) | omega) (by first | (simp only <;> omega) | omega)
      refine ⟨?_, by rw [ha, truncSec], ?_, ?_, ?_⟩
      · rw [ha, truncSec, getTime, getTime]
        simp only
        omega
      · rw [ha, validDate]
        simp only
        omega
      · rw [ha, everysecondRotatePeriod]
        simp only
        rw [show (0 : Int) - 1 = -1 from rfl,
          newDate_eval now.year now.month now.day now.hour (now.minute + 1) (-1) 0
            (now.hour * 3600000 + now.minute * 60000 + 59 * 1000) (by omega) (by omega)
            (by omega) (by omega) (by omega), truncSec]
        exact JSDate.ext (by first | (simp only <;> omega) | omega) (by first | (simp only <;> omega) | omega) (by first | (simp only <;> omega) | omega) (by first | (simp only <;> omega) | omega) (by first | (simp only <;> omega) | omega) (by first | (simp only <;> omega) | omega) (by first | (simp only <;> omega) | omega)
      · rw [ha, getTime, getTime]
        simp only
        omega
    · have hmi59 : now.minute = 59 := by omega
      by_cases h22 : now.hour ≤ 22
      · have ha : everysecondTimeRate now
            = ⟨now.year, now.month, now.day, now.hour + 1, 0, 0, 0⟩ := by
          rw [everysecondTimeRate, hs59, hmi59, newDate_eval now.year now.month now.day
            now.hour 59 (59 + 1) 0 ((now.hour + 1) * 3600000) (by omega) (by omega)
            (by omega) (by omega) (by omega)]
          exact JSDate.ext (by first | (simp only <;> omega) | omega) (by first | (simp only <;> omega) | omega) (by first | (simp only <;> omega) | omega) (by first | (simp only <;> omega) | omega) (by first | (simp only <;> omega) | omega) (by first | (simp only <;> omega) | omega) (by first | (simp only <;> omega) | omega)
        refine ⟨?_, by rw [ha, truncSec], ?_, ?_, ?_⟩
        · rw [ha, truncSec, getTime, getTime]
          simp only
          omega
        · rw [ha, validDate]
          simp only
          omega
        · rw [ha, everysecondRotatePeriod]
          simp only
          rw [show (0 : Int) - 1 = -1 from rfl,
            newDate_eval now.year now.month now.day (now.hour + 1) 0 (-1) 0
              (now.hour * 3600000 + 59 * 60000 + 59 * 1000) (by omega) (by omega) (by omega)
              (by omega) (by omega), truncSec]
          exact JSDate.ext (by first | (simp only <;> omega) | omega) (by first | (simp only <;> omega) | omega) (by first | (simp only <;> omega) | omega) (by first | (simp only <;> omega) | omega) (by first | (simp only <;> omega) | omega) (by first | (simp only <;> omega) | omega) (by first | (simp only <;> omega) | omega)
        · rw [ha, getTime, getTime]
          simp only
          omega
      · have h23 : now.hour = 23 := by omega
        by_cases hdd : now.day + 1 ≤ daysInMonth now.year now.month
        · have ha : everysecondTimeRate now
              = ⟨now.year, now.month, now.day + 1, 0, 0, 0, 0⟩ := by
            rw [everysecondTimeRate, hs59, hmi59, h23, newDate_eval now.year now.month
              now.day 23 59 (59 + 1) 1 0 (by omega) (by omega) (by omega) (by omega)
              (by omega)]
            exact JSDate.ext (by first | (simp only <;> omega) | omega) (by first | (simp only <;> omega) | omega) (by first | (simp only <;> omega) | omega) (by first | (simp only <;> omega) | omega) (by first | (simp only <;> omega) | omega) (by first | (simp only <;> omega) | omega) (by first | (simp only <;> omega) | omega)
          have hshift := dfc_shift now.year now.month now.day 1
          refine ⟨?_, by rw [ha, truncSec], ?_, ?_, ?_⟩
          · rw [ha, truncSec, getTime, getTime]
            simp only
            omega
          · rw [ha, validDate]
            simp only
            omega
          · rw [ha, everysecondRotatePeriod]
            simp only
            rw [show (0 : Int) - 1 = -1 from rfl,
              newDate_eval now.year now.month (now.day + 1) 0 0 (-1) (-1) 86399000
                (by omega) (by omega) (by omega) (by omega) (by omega), truncSec]
            exact JSDate.ext (by first | (simp only <;> omega) | omega) (by first | (simp only <;> omega) | omega) (by first | (simp only <;> omega) | omega) (by first | (simp only <;> omega) | omega) (by first | (simp only <;> omega) | omega) (by first | (simp only <;> omega) | omega) (by first | (simp only <;> omega) | omega)
          · rw [ha, getTime, getTime]
            simp only
            omega
        · have ha : everysecondTimeRate now = ⟨(nextYM now.year now.month).1,
              (nextYM now.year now.month).2, now.day + 1 - daysInMonth now.year now.month,
              0, 0, 0, 0⟩ := by
            rw [everysecondTimeRate, hs59, hmi59, h23, newDate_eval_over now.year now.month
              now.day 23 59 (59 + 1) 1 0 (by omega) (by omega) (by omega) (by omega)
              (by omega) (by omega)]
            exact JSDate.ext (by first | (simp only <;> omega) | omega) (by first | (simp only <;> omega) | omega) (by first | (simp only <;> omega) | omega) (by first | (simp only <;> omega) | omega) (by first | (simp only <;> omega) | omega) (by first | (simp only <;> omega) | omega) (by first | (simp only <;> omega) | omega)
          have hnext := dfc_next now.year now.month ⟨hm0, hm1⟩
          have hrel : daysFromCivil now.year now.month (daysInMonth now.year now.month + 1)
              = daysFromCivil now.year now.month now.day + 1 := by
            rw [← dfc_shift]
            congr 1
            omega
          have hday1 : now.day + 1 - daysInMonth now.year now.month = 1 := by omega
          refine ⟨?_, by rw [ha, truncSec], ?_, ?_, ?_⟩
          · rw [ha, truncSec, getTime, getTime]
            simp only
            rw [hday1]
            omega
          · rw [ha, validDate]
            simp only
            omega
          · rw [ha, everysecondRotatePeriod]
            simp only
            rw [hday1, show (0 : Int) - 1 = -1 from rfl,
              newDate_eval_under (nextYM now.year now.month).1 (nextYM now.year now.month).2
                1 0 0 (-1) (-1) 86399000 (by omega) (by omega) (by omega) (by omega)
                (by omega)
                (by rw [prevYM_nextYM now.year now.month ⟨hm0, hm1⟩]; simp only; omega),
              prevYM_nextYM now.year now.month ⟨hm0, hm1⟩, truncSec]
            exact JSDate.ext (by first | (simp only <;> omega) | omega) (by first | (simp only <;> omega) | omega) (by first | (simp only <;> omega) | omega) (by first | (simp only <;> omega) | omega) (by first | (simp only <;> omega) | omega) (by first | (simp only <;> omega) | omega) (by first | (simp only <;> omega) | omega)
          · rw [ha, getTime, getTime]
            simp only
            rw [hday1]
            omega

theorem every3seconds_correct (now : JSDate) (hv : validDate now) :
    getTime (every3secondsTimeRate now) = getTime (truncSec now) + 3000
    ∧ every3secondsTimeRate now = truncSec (every3secondsTimeRate now)
    ∧ validDate (every3secondsTimeRate now)
    ∧ every3secondsRotatePeriod (every3secondsTimeRate now) = truncSec now
    ∧ getTime now < getTime (every3secondsTimeRate now) := by
  obtain ⟨hy, hm0, hm1, hd1, hd2, hh1, hh2, hmi1, hmi2, hs1, hs2, hms1, hms2⟩ := hv
  have hb := daysInMonth_bounds now.year now.month
  have hnb := nextYM_bounds now.year now.month ⟨hm0, hm1⟩
  have hbn := daysInMonth_bounds (nextYM now.year now.month).1 (nextYM now.year now.month).2
  by_cases hsA : now.second ≤ 56
  · have ha : every3secondsTimeRate now
        = ⟨now.year, now.month, now.day, now.hour, now.minute, now.second + 3, 0⟩ := by
      rw [every3secondsTimeRate, newDate_eval now.year now.month now.day now.hour now.minute
        (now.second + 3) 0
        (now.hour * 3600000 + now.minute * 60000 + (now.second + 3) * 1000) (by omega)
        (by omega) (by omega) (by omega) (by omega)]
      exact JSDate.ext (by first | (simp only <;> omega) | omega) (by first | (simp only <;> omega) | omega) (by first | (simp only <;> omega) | omega) (by first | (simp only <;> omega) | omega) (by first | (simp only <;> omega) | omega) (by first | (simp only <;> omega) | omega) (by first | (simp only <;> omega) | omega)
    refine ⟨?_, by rw [ha, truncSec], ?_, ?_, ?_⟩
    · rw [ha, truncSec, getTime, getTime]
      simp only
      omega
    · rw [ha, validDate]
      simp only
      omega
    · rw [ha, every3secondsRotatePeriod]
      simp only
      rw [show now.second + 3 - 3 = now.second from by omega,
        newDate_eval now.year now.month now.day now.hour now.minute now.second 0
          (now.hour * 3600000 + now.minute * 60000 + now.second * 1000) (by omega) (by omega)
          (by omega) (by omega) (by omega), truncSec]
      exact JSDate.ext (by first | (simp only <;> omega) | omega) (by first | (simp only <;> omega) | omega) (by first | (simp only <;> omega) | omega) (by first | (simp only <;> omega) | omega) (by first | (simp only <;> omega) | omega) (by first | (simp only <;> omega) | omega) (by first | (simp only <;> omega) | omega)
    · rw [ha, getTime, getTime]
      simp only
      omega
  · have hs57 : 57 ≤ now.second := by omega
    by_cases hmiA : now.minute ≤ 58
    · have ha : every3secondsTimeRate now
          = ⟨now.year, now.month, now.day, now.hour, now.minute + 1, now.second - 57, 0⟩ := by
        rw [every3secondsTimeRate, newDate_eval now.year now.month now.day now.hour
          now.minute (now.second + 3) 0
          (now.hour * 3600000 + (now.minute + 1) * 60000 + (now.second - 57) * 1000)
          (by omega) (by omega) (by omega) (by omega) (by omega)]
        exact JSDate.ext (by first | (simp only <;> omega) | omega) (by first | (simp only <;> omega) | omega) (by first | (simp only <;> omega) | omega) (by first | (simp only <;> omega) | omega) (by first | (simp only <;> omega) | omega) (by first | (simp only <;> omega) | omega) (by first | (simp only <;> omega) | omega)
      refine ⟨?_, by rw [ha, truncSec], ?_, ?_, ?_⟩
      · rw [ha, truncSec, getTime, getTime]
        simp only
        omega
      · rw [ha, validDate]
        simp only
        omega
      · rw [ha, every3secondsRotatePeriod]
        simp only
        rw [newDate_eval now.year now.month now.day now.hour (now.minute + 1)
          (now.second - 57 - 3) 0
          (now.hour * 3600000 + now.minute * 60000 + now.second * 1000) (by omega) (by omega)
          (by omega) (by omega) (by omega), truncSec]
        exact JSDate.ext (by first | (simp only <;> omega) | omega) (by first | (simp only <;> omega) | omega) (by first | (simp only <;> omega) | omega) (by first | (simp only <;> omega) | omega) (by first | (simp only <;> omega) | omega) (by first | (simp only <;> omega) | omega) (by first | (simp only <;> omega) | omega)
      · rw [ha, getTime, getTime]
        simp only
        omega
    · have hmi59 : now.minute = 59 := by omega
      by_cases h22 : now.hour ≤ 22
      · have ha : every3secondsTimeRate now
            = ⟨now.year, now.month, now.day, now.hour + 1, 0, now.second - 57, 0⟩ := by
          rw [every3secondsTimeRate, hmi59, newDate_eval now.year now.month now.day
            now.hour 59 (now.second + 3) 0
            ((now.hour + 1) * 3600000 + (now.second - 57) * 1000) (by omega) (by omega)
            (by omega) (by omega) (by omega)]
          exact JSDate.ext (by first | (simp only <;> omega) | omega) (by first | (simp only <;> omega) | omega) (by first | (simp only <;> omega) | omega) (by first | (simp only <;> omega) | omega) (by first | (simp only <;> omega) | omega) (by first | (simp only <;> omega) | omega) (by first | (simp only <;> omega) | omega)
        refine ⟨?_, by rw [ha, truncSec], ?_, ?_, ?_⟩
        · rw [ha, truncSec, getTime, getTime]
          simp only
          omega
        · rw [ha, validDate]
          simp only
          omega
        · rw [ha, every3secondsRotatePeriod]
          simp only
          rw [newDate_eval now.year now.month now.day (now.hour + 1) 0
            (now.second - 57 - 3) 0
            (now.hour * 3600000 + 59 * 60000 + now.second * 1000) (by omega) (by omega)
            (by omega) (by omega) (by omega), truncSec]
          exact JSDate.ext (by first | (simp only <;> omega) | omega) (by first | (simp only <;> omega) | omega) (by first | (simp only <;> omega) | omega) (by first | (simp only <;> omega) | omega) (by first | (simp only <;> omega) | omega) (by first | (simp only <;> omega) | omega) (by first | (simp only <;> omega) | omega)
        · rw [ha, getTime, getTime]
          simp only
          omega
      · have h23 : now.hour = 23 := by omega
        by_cases hdd : now.day + 1 ≤ daysInMonth now.year now.month
        · have ha : every3secondsTimeRate now
              = ⟨now.year, now.month, now.day + 1, 0, 0, now.second - 57, 0⟩ := by
            rw [every3secondsTimeRate, hmi59, h23, newDate_eval now.year now.month
              now.day 23 59 (now.second + 3) 1 ((now.second - 57) * 1000) (by omega)
              (by omega) (by omega) (by omega) (by omega)]
            exact JSDate.ext (by first | (simp only <;> omega) | omega) (by first | (simp only <;> omega) | omega) (by first | (simp only <;> omega) | omega) (by first | (simp only <;> omega) | omega) (by first | (simp only <;> omega) | omega) (by first | (simp only <;> omega) | omega) (by first | (simp only <;> omega) | omega)
          have hshift := dfc_shift now.year now.month now.day 1
          refine ⟨?_, by rw [ha, truncSec], ?_, ?_, ?_⟩
          · rw [ha, truncSec, getTime, getTime]
            simp only
            omega
          · rw [ha, validDate]
            simp only
            omega
          · rw [ha, every3secondsRotatePeriod]
            simp only
            rw [newDate_eval now.year now.month (now.day + 1) 0 0 (now.second - 57 - 3) (-1)
                (23 * 3600000 + 59 * 60000 + now.second * 1000) (by omega) (by omega)
                (by omega) (by omega) (by omega), truncSec]
            exact JSDate.ext (by first | (simp only <;> omega) | omega) (by first | (simp only <;> omega) | omega) (by first | (simp only <;> omega) | omega) (by first | (simp only <;> omega) | omega) (by first | (simp only <;> omega) | omega) (by first | (simp only <;> omega) | omega) (by first | (simp only <;> omega) | omega)
          · rw [ha, getTime, getTime]
            simp only
            omega
        · have ha : every3secondsTimeRate now = ⟨(nextYM now.year now.month).1,
              (nextYM now.year now.month).2, now.day + 1 - daysInMonth now.year now.month,
              0, 0, now.second - 57, 0⟩ := by
            rw [every3secondsTimeRate, hmi59, h23, newDate_eval_over now.year now.month
              now.day 23 59 (now.second + 3) 1 ((now.second - 57) * 1000) (by omega)
              (by omega) (by omega) (by omega) (by omega) (by omega)]
            exact JSDate.ext (by first | (simp only <;> omega) | omega) (by first | (simp only <;> omega) | omega) (by first | (simp only <;> omega) | omega) (by first | (simp only <;> omega) | omega) (by first | (simp only <;> omega) | omega) (by first | (simp only <;> omega) | omega) (by first | (simp only <;> omega) | omega)
          have hnext := dfc_next now.year now.month ⟨hm0, hm1⟩
          have hrel : daysFromCivil now.year now.month (daysInMonth now.year now.month + 1)
              = daysFromCivil now.year now.month now.day + 1 := by
            rw [← dfc_shift]
            congr 1
            omega
          have hday1 : now.day + 1 - daysInMonth now.year now.month = 1 := by omega
          refine ⟨?_, by rw [ha, truncSec], ?_, ?_, ?_⟩
          · rw [ha, truncSec, getTime, getTime]
            simp only
            rw [hday1]
            omega
          · rw [ha, validDate]
            simp only
            omega
          · rw [ha, every3secondsRotatePeriod]
            simp only
            rw [hday1,
              newDate_eval_under (nextYM now.year now.month).1 (nextYM now.year now.month).2
                1 0 0 (now.second - 57 - 3) (-1)
                (23 * 3600000 + 59 * 60000 + now.second * 1000) (by omega) (by omega)
                (by omega) (by omega) (by omega)
                (by rw [prevYM_nextYM now.year now.month ⟨hm0, hm1⟩]; simp only; omega),
              prevYM_nextYM now.year now.month ⟨hm0, hm1⟩, truncSec]
            exact JSDate.ext (by first | (simp only <;> omega) | omega) (by first | (simp only <;> omega) | omega) (by first | (simp only <;> omega) | omega) (by first | (simp only <;> omega) | omega) (by first | (simp only <;> omega) | omega) (by first | (simp only <;> omega) | omega) (by first | (simp only <;> omega) | omega)
          · rw [ha, getTime, getTime]
            simp only
            rw [hday1]
            omega

/-- C7 (code evaluated at the failing input, plus the named-granularity
    behavior).  Every named granularity computes true calendar arithmetic:
    yearly and monthly produce the explicit start of the next year/month
    and their rotatePeriod recovers the start of the unit ending at the
    boundary; weekly produces the next Sunday midnight within seven days
    and steps back exactly seven days; daily, hourly, everyminute,
    everysecond and every3seconds advance the truncated unit start by
    exactly one unit length (handling month ends and leap years through
    civil-calendar normalization) and their rotatePeriod recovers the unit
    start.  A raw millisecond interval, however, never reaches the
    documented fixed-duration fallback: the table lookup yields undefined
    and reading its rotatePeriod property throws a TypeError during
    construction (final two conjuncts: raw intervals fail, named
    granularities select the table entry). -/
theorem rotates_granularities (now : JSDate) (hv : validDate now) :
    (yearlyTimeRate now = ⟨now.year + 1, 0, 1, 0, 0, 0, 0⟩
      ∧ getTime now < getTime (yearlyTimeRate now)
      ∧ yearlyRotatePeriod (yearlyTimeRate now) = ⟨now.year, 0, 1, 0, 0, 0, 0⟩)
    ∧ (monthlyTimeRate now = (if now.month = 11 then (⟨now.year + 1, 0, 1, 0, 0, 0, 0⟩ : JSDate)
          else ⟨now.year, now.month + 1, 1, 0, 0, 0, 0⟩)
      ∧ getTime now < getTime (monthlyTimeRate now)
      ∧ monthlyRotatePeriod (monthlyTimeRate now) = ⟨now.year, now.month, 1, 0, 0, 0, 0⟩)
    ∧ (getTime (weeklyTimeRate now)
          = getTime (truncDay now) + (7 - getDay now) * 86400000
      ∧ 1 ≤ 7 - getDay now ∧ 7 - getDay now ≤ 7
      ∧ weeklyTimeRate now = truncDay (weeklyTimeRate now)
      ∧ validDate (weeklyTimeRate now)
      ∧ getDay (weeklyTimeRate now) = 0
      ∧ getTime now < getTime (weeklyTimeRate now)
      ∧ getTime (weeklyRotatePeriod (weeklyTimeRate now))
          = getTime (weeklyTimeRate now) - 7 * 86400000
      ∧ getDay (weeklyRotatePeriod (weeklyTimeRate now)) = 0
      ∧ weeklyRotatePeriod (weeklyTimeRate now)
          = truncDay (weeklyRotatePeriod (weeklyTimeRate now)))
    ∧ (getTime (dailyTimeRate now) = getTime (truncDay now) + 86400000
      ∧ dailyTimeRate now = truncDay (dailyTimeRate now)
      ∧ validDate (dailyTimeRate now)
      ∧ dailyRotatePeriod (dailyTimeRate now) = truncDay now
      ∧ getTime now < getTime (dailyTimeRate now))
    ∧ (getTime (hourlyTimeRate now) = getTime (truncHour now) + 3600000
      ∧ hourlyTimeRate now = truncHour (hourlyTimeRate now)
      ∧ validDate (hourlyTimeRate now)
      ∧ hourlyRotatePeriod (hourlyTimeRate now) = truncHour now
      ∧ getTime now < getTime (hourlyTimeRate now))
    ∧ (getTime (everyminuteTimeRate now) = getTime (truncMin now) + 60000
      ∧ everyminuteTimeRate now = truncMin (everyminuteTimeRate now)
      ∧ validDate (everyminuteTimeRate now)
      ∧ everyminuteRotatePeriod (everyminuteTimeRate now) = truncMin now
      ∧ getTime now < getTime (everyminuteTimeRate now))
    ∧ (getTime (everysecondTimeRate now) = getTime (truncSec now) + 1000
      ∧ everysecondTimeRate now = truncSec (everysecondTimeRate now)
      ∧ validDate (everysecondTimeRate now)
      ∧ everysecondRotatePeriod (everysecondTimeRate now) = truncSec now
      ∧ getTime now < getTime (everysecondTimeRate now))
    ∧ (getTime (every3secondsTimeRate now) = getTime (truncSec now) + 3000
      ∧ every3secondsTimeRate now = truncSec (every3secondsTimeRate now)
      ∧ validDate (every3secondsTimeRate now)
      ∧ every3secondsRotatePeriod (every3secondsTimeRate now) = truncSec now
      ∧ getTime now < getTime (every3secondsTimeRate now))
    ∧ (∀ n : Int, timeRuleSetup (TimeRateOpt.rawMs n) = Except.error "TypeError")
    ∧ (∀ e, rotates "daily" = some e →
        timeRuleSetup (TimeRateOpt.named "daily") = Except.ok (e.rotatePeriod, e.timeRate)) := by
  refine ⟨yearly_correct now hv, monthly_correct now hv, weekly_correct now hv,
    daily_correct now hv, hourly_correct now hv, everyminute_correct now hv,
    everysecond_correct now hv, every3seconds_correct now hv, fun n => rfl, fun e he => ?_⟩
  rw [timeRuleSetup, rotatesLookup, he]

/-- C7 (witness): 2024-02-28 23:59:58.500, a leap-year end of February. -/
theorem rotates_granularities_witness :
    validDate ⟨2024, 1, 28, 23, 59, 58, 500⟩
    ∧ getTime (dailyTimeRate ⟨2024, 1, 28, 23, 59, 58, 500⟩)
        = getTime (truncDay ⟨2024, 1, 28, 23, 59, 58, 500⟩) + 86400000 :=
  ⟨by decide, (rotates_granularities ⟨2024, 1, 28, 23, 59, 58, 500⟩ (by decide)).2.2.2.1.1⟩
